import Mathlib

/-!
# Verification of the F1 emotions dataset generator

A shallow embedding of `src/generator.py` (the single source file of the
repository `F1_emotions_visualization`) together with theorems settling the
frozen claims about its specification.

Modelling conventions:

* Python/NumPy floats are modelled as exact rationals (`ℚ`); `NaN` (pandas
  missing values) is modelled as `none : Option ℚ`.  Arithmetic on possibly
  missing values propagates `none`, mirroring NaN propagation.
* DataFrames are lists of row structures; column operations are list maps,
  grouped aggregations are computed per distinct key, and `merge(..., how="left")`
  becomes a key lookup (the right-hand tables of every join have unique keys,
  except the lap/position join of `calculate_pressure`, which is embedded as a
  general left join).
* `np.exp` and the square root inside pandas' rolling `std` are transcendental;
  the embedding is parametric in them (`expFn`, `sqrtFn : ℚ → ℚ`), and theorems
  that need facts about them take those facts as hypotheses.
* `pd.Series.min`/`max`/`mean` skip missing values, which is mirrored by
  computing over `List.filterMap id`.
* Python's `int(...)` truncates toward zero; `pyInt` mirrors this exactly.

All definitions are translated from `src/generator.py`; the one definition
translated from the spec's words instead is `specRawScorePressure`, clearly
named, used to compare the specified pressure weights with the implemented
ones.
-/

/-- Python `int(q)` for a float `q`: truncation toward zero
(`Int.div` truncates toward zero). -/
def pyInt (q : ℚ) : ℤ := q.num / (q.den : ℤ)

/-- `np.clip(x, lo, hi)` / `Series.clip(lo, hi)` for `lo ≤ hi`. -/
def qclip (lo hi x : ℚ) : ℚ := max lo (min hi x)

/-- `Series.fillna(b)` applied to a single cell `a`. -/
def ofill (a b : Option ℚ) : Option ℚ :=
  match a with
  | some x => some x
  | none => b

/-- NaN-propagating binary operation on possibly missing floats. -/
def omap2 (f : ℚ → ℚ → ℚ) : Option ℚ → Option ℚ → Option ℚ
  | some a, some b => some (f a b)
  | _, _ => none

/-- NaN-propagating ternary operation. -/
def omap3 (f : ℚ → ℚ → ℚ → ℚ) : Option ℚ → Option ℚ → Option ℚ → Option ℚ
  | some a, some b, some c => some (f a b c)
  | _, _, _ => none

/-- NaN-propagating 6-ary operation. -/
def omap6 (f : ℚ → ℚ → ℚ → ℚ → ℚ → ℚ → ℚ) :
    Option ℚ → Option ℚ → Option ℚ → Option ℚ → Option ℚ → Option ℚ → Option ℚ
  | some a, some b, some c, some d, some e, some g => some (f a b c d e g)
  | _, _, _, _, _, _ => none

/-- Minimum of a list of rationals (`none` on the empty list). -/
def listMin : List ℚ → Option ℚ
  | [] => none
  | x :: xs =>
    match listMin xs with
    | none => some x
    | some m => some (min x m)

/-- Maximum of a list of rationals (`none` on the empty list). -/
def listMax : List ℚ → Option ℚ
  | [] => none
  | x :: xs =>
    match listMax xs with
    | none => some x
    | some m => some (max x m)

/-- `Series.min()`: skips missing values, `NaN` when nothing is left. -/
def seriesMin (vals : List (Option ℚ)) : Option ℚ := listMin (vals.filterMap id)

/-- `Series.max()`: skips missing values, `NaN` when nothing is left. -/
def seriesMax (vals : List (Option ℚ)) : Option ℚ := listMax (vals.filterMap id)

/-- `Series.mean()`: mean over the non-missing entries, `NaN` when there are
none. -/
def omean (vals : List (Option ℚ)) : Option ℚ :=
  let d := vals.filterMap id
  match d with
  | [] => none
  | _ => some (d.sum / (d.length : ℚ))

/-- Mean of a boolean column cast to float (`np.mean(x.astype(float))`);
division by zero only on an empty list, where pandas would give `NaN`
(never reached: groups are nonempty). -/
def boolMean (l : List Bool) : ℚ := ((l.countP id : ℕ) : ℚ) / (l.length : ℚ)

/-- `zipWith` over four lists. -/
def zipWith4 (f : α → β → γ → δ → ε) : List α → List β → List γ → List δ → List ε
  | a :: as, b :: bs, c :: cs, d :: ds => f a b c d :: zipWith4 f as bs cs ds
  | _, _, _, _ => []

/-- `zipWith` over six lists. -/
def zipWith6 (f : α → β → γ → δ → ε → ζ → η) :
    List α → List β → List γ → List δ → List ε → List ζ → List η
  | a :: as, b :: bs, c :: cs, d :: ds, e :: es, g :: gs =>
      f a b c d e g :: zipWith6 f as bs cs ds es gs
  | _, _, _, _, _, _ => []

/-- `normalise_series` (generator.py lines 59–71): min-max normalisation of a
float series to `[0, 1]`.  If the min or max is `NaN` (no finite entries, in
particular an empty series) the result is all zeros; if
`np.isclose(max, min)` — that is `|max - min| ≤ atol + rtol·|min|` with
`atol = 1e-8`, `rtol = 1e-5` — the result is all zeros; otherwise every entry
is mapped to `(x - min) / (max - min)`, `NaN` entries propagating as `NaN`. -/
def normaliseSeries (vals : List (Option ℚ)) : List (Option ℚ) :=
  match seriesMin vals, seriesMax vals with
  | some mn, some mx =>
      if |mx - mn| ≤ 1 / 100000000 + (1 / 100000) * |mn| then
        List.replicate vals.length (some 0)
      else
        vals.map (Option.map (fun x => (x - mn) / (mx - mn)))
  | _, _ => List.replicate vals.length (some 0)

/-- One row of the laps table as the scorers receive it (after
`load_session_data`): `Driver` is a string, `LapNumber` an integer, the time
columns are seconds (`to_seconds` applied, missing on failure), `Compound` a
possibly missing string, `TyreLife`/`Position` possibly missing numerics, and
the pit columns matter only through presence. -/
structure LapRow where
  driver : String
  lapNumber : ℤ
  lapTime : Option ℚ
  sector1 : Option ℚ
  sector2 : Option ℚ
  sector3 : Option ℚ
  compound : Option String
  tyreLife : Option ℚ
  position : Option ℚ
  pitIn : Option ℚ
  pitOut : Option ℚ
deriving DecidableEq, Repr, Inhabited

/-- One telemetry sample row (after `load_session_data`): `Brake` has been
coerced to a genuine boolean (`fillna(False).astype(bool)`); the numeric
channels may be missing. -/
structure TeleRow where
  driver : String
  lapNumber : ℤ
  throttle : Option ℚ
  brake : Bool
  drs : Option ℚ
  distanceToDriverAhead : Option ℚ
  speed : Option ℚ
  rpm : Option ℚ
  distance : Option ℚ
deriving DecidableEq, Repr, Inhabited

/-- One race-control message; only the (possibly missing) lap number is
consumed by the pipeline. -/
structure RCEvent where
  lap : Option ℚ
deriving DecidableEq, Repr, Inhabited

/-- One output row of a scoring transform: columns `Driver`, `LapNumber` and
the emotion score (possibly `NaN`). -/
structure ScoreRow where
  driver : String
  lapNumber : ℤ
  score : Option ℚ
deriving DecidableEq, Repr, Inhabited

/-- `sort_values(["Driver", "LapNumber"])` ordering. -/
def scoreRowLe (a b : ScoreRow) : Prop :=
  a.driver < b.driver ∨ (a.driver = b.driver ∧ a.lapNumber ≤ b.lapNumber)

instance : DecidableRel scoreRowLe := fun a b => by
  unfold scoreRowLe; infer_instance

/-- Final `sort_values(["Driver", "LapNumber"]).reset_index(drop=True)` of each
scoring transform. -/
def sortScoreRows (l : List ScoreRow) : List ScoreRow := List.insertionSort scoreRowLe l

/-- The lap-time filter shared by all five transforms (e.g. lines 207–209):
keep rows whose lap time converts to a strictly positive number of seconds. -/
def lapTimeFilter (laps : List LapRow) : List LapRow :=
  laps.filter fun r =>
    match r.lapTime with
    | some t => decide (0 < t)
    | none => false

/-- `groupby(["Driver", "LapNumber"])` key ordering (pandas sorts group keys). -/
def keyLe (a b : String × ℤ) : Prop := a.1 < b.1 ∨ (a.1 = b.1 ∧ a.2 ≤ b.2)

instance : DecidableRel keyLe := fun a b => by
  unfold keyLe; infer_instance

/-- The distinct `(Driver, LapNumber)` keys of the telemetry table, in the
sorted order pandas' `groupby` produces. -/
def teleKeys (tele : List TeleRow) : List (String × ℤ) :=
  List.insertionSort keyLe ((tele.map fun t => (t.driver, t.lapNumber)).dedup)

/-- The telemetry samples of one `(Driver, LapNumber)` group. -/
def teleGroup (tele : List TeleRow) (k : String × ℤ) : List TeleRow :=
  tele.filter fun t => t.driver == k.1 && t.lapNumber == k.2

/-- `deg_rates.get(compound, 0.06)` (generator.py lines 188–194, 215). -/
def degRateOf (c : String) : ℚ :=
  if c = "SOFT" then 0.12 else if c = "MEDIUM" then 0.06 else if c = "HARD" then 0.03
  else if c = "INTERMEDIATE" then 0.09 else if c = "WET" then 0.15 else 0.06

/-- `Compound.map(expected_life).fillna(30.0)` (lines 195–201, 251). -/
def expectedLifeOf (c : String) : ℚ :=
  if c = "SOFT" then 15 else if c = "MEDIUM" then 30 else if c = "HARD" then 45
  else if c = "INTERMEDIATE" then 20 else if c = "WET" then 10 else 30

/-- The per-(driver, lap) telemetry aggregate of `calculate_aggressiveness`
(lines 227–238): mean throttle, fraction of brake-on samples, count of
DRS-active samples (`NaN > 0` is false), and mean distance to the car ahead
already filled to the 1000.0 sentinel. -/
structure AggrTele where
  driver : String
  lapNumber : ℤ
  avgThrottle : Option ℚ
  brakeOn : ℚ
  drsCount : ℚ
  avgDistAhead : ℚ
deriving DecidableEq, Repr, Inhabited

def aggrTeleAgg (tele : List TeleRow) : List AggrTele :=
  (teleKeys tele).map fun k =>
    let g := teleGroup tele k
    { driver := k.1
      lapNumber := k.2
      avgThrottle := omean (g.map (·.throttle))
      brakeOn := boolMean (g.map (·.brake))
      drsCount := ((g.countP fun t => decide (0 < t.drs.getD 0)) : ℚ)
      avgDistAhead := (omean (g.map (·.distanceToDriverAhead))).getD 1000 }

/-- `merge(..., on=["Driver", "LapNumber"], how="left")` against the
aggregate table, whose keys are unique. -/
def findAggrTele (agg : List AggrTele) (d : String) (n : ℤ) : Option AggrTele :=
  agg.find? fun a => a.driver == d && a.lapNumber == n

/-- `session_best` of `calculate_aggressiveness` (lines 220–224): the minimum
corrected lap time, retried over nonzero entries and finally defaulted to 1.0
whenever the minimum is missing or non-positive. -/
def sessionBest (corrected : List ℚ) : ℚ :=
  let fallback :=
    match listMin (corrected.filter fun x => decide (x ≠ 0)) with
    | some m2 => if 0 < m2 then m2 else 1
    | none => 1
  match listMin corrected with
  | some m1 => if 0 < m1 then m1 else fallback
  | none => 1

/-- Rows of the filtered laps table enriched with the fuel- and
tyre-corrected lap time (lines 207–218). -/
structure AggrBase where
  driver : String
  lapNumber : ℤ
  position : Option ℚ
  compound : String
  tyreLife : ℚ
  lapTimeSec : ℚ
  correctedLapTime : ℚ
deriving DecidableEq, Repr, Inhabited

def aggrBaseRows (laps : List LapRow) : List AggrBase :=
  let totalRaceLaps : ℚ := ((max 1 ((laps.map (·.lapNumber)).foldr max 0) : ℤ) : ℚ)
  (lapTimeFilter laps).map fun r =>
    let compoundU := (r.compound.getD "").toUpper
    let tyreLife := r.tyreLife.getD 0
    let t := r.lapTime.getD 0
    let remainingFuel := 110 - (r.lapNumber : ℚ) * (110 / totalRaceLaps)
    let fuelPenalty := (0.035 : ℚ) * remainingFuel
    let degPenalty := degRateOf compoundU * tyreLife
    { driver := r.driver, lapNumber := r.lapNumber, position := r.position,
      compound := compoundU, tyreLife := tyreLife, lapTimeSec := t,
      correctedLapTime := t - fuelPenalty - degPenalty }

/-- The position-context factor (lines 259–264): a fixed 0.8 except for the
hardcoded title contenders `VER`/`HAM` running in the top 5, who get
`1.2 - position / total_drivers` (a missing position compares false). -/
def positionFactorOf (driver : String) (position : Option ℚ) (totalDrivers : ℚ) : ℚ :=
  match position with
  | some p => if (driver = "VER" ∨ driver = "HAM") ∧ p ≤ 5 then 1.2 - p / totalDrivers else 0.8
  | none => 0.8

/-- The fixed linear combination producing the aggressiveness `raw_score`
(lines 266–274). -/
def rawScoreAggr (throttle tyre time gap drs brake position : ℚ) : ℚ :=
  0.25 * throttle + 0.15 * tyre + 0.20 * time + 0.20 * gap
    + 0.15 * drs + 0.05 * brake + 0.15 * position

/-- The factor columns of `calculate_aggressiveness` (lines 240–274), one
record per filtered lap row, in table order. -/
structure AggrFactors where
  driver : String
  lapNumber : ℤ
  throttleFactor : ℚ
  tyreFactor : ℚ
  timeFactor : ℚ
  gapFactor : ℚ
  drsFactor : ℚ
  brakeFactor : ℚ
  positionFactor : ℚ
  rawScore : ℚ
deriving DecidableEq, Repr, Inhabited

def aggressivenessFactorRows (expFn : ℚ → ℚ) (laps : List LapRow) (tele : List TeleRow) :
    List AggrFactors :=
  let totalDrivers : ℚ := ((max 1 (laps.map (·.driver)).dedup.length : ℕ) : ℚ)
  let base := aggrBaseRows laps
  let sb := sessionBest (base.map (·.correctedLapTime))
  let agg := aggrTeleAgg tele
  let throttleCol : List (Option ℚ) :=
    base.map fun r => (findAggrTele agg r.driver r.lapNumber).bind (·.avgThrottle)
  let throttleMean := omean throttleCol
  let brakeCol : List (Option ℚ) :=
    base.map fun r => (findAggrTele agg r.driver r.lapNumber).map (·.brakeOn)
  let brakeMean := omean brakeCol
  base.map fun r =>
    let m := findAggrTele agg r.driver r.lapNumber
    let avgThrottle := (ofill (m.bind (·.avgThrottle)) throttleMean).getD 50
    let brakeOn := (ofill (m.map (·.brakeOn)) brakeMean).getD 0.1
    let drsCount := (m.map (·.drsCount)).getD 0
    let avgDistAhead := (m.map (·.avgDistAhead)).getD 1000
    let normalizedTime := r.correctedLapTime / sb
    let throttleFactor := qclip 0 100 avgThrottle / 100
    let tyreFactor := max 0.1 (1 - r.tyreLife / expectedLifeOf r.compound)
    let timeFactor := if normalizedTime = 0 then 1 else 1 / normalizedTime
    let gapFactor := expFn (-avgDistAhead / 10)
    let drsFactor := min 1 (2 * drsCount / 200 + 0.3)
    let brakeFactor := 1 - qclip 0 1 brakeOn
    let positionFactor := positionFactorOf r.driver r.position totalDrivers
    { driver := r.driver, lapNumber := r.lapNumber,
      throttleFactor := throttleFactor, tyreFactor := tyreFactor,
      timeFactor := timeFactor, gapFactor := gapFactor, drsFactor := drsFactor,
      brakeFactor := brakeFactor, positionFactor := positionFactor,
      rawScore := rawScoreAggr throttleFactor tyreFactor timeFactor gapFactor
        drsFactor brakeFactor positionFactor }

/-- `calculate_aggressiveness` (lines 181–283): factor rows, session-wide
min-max normalisation of `raw_score` clipped to `[0, 1]`, output sorted by
driver then lap. -/
def calculateAggressiveness (expFn : ℚ → ℚ) (laps : List LapRow) (tele : List TeleRow) :
    List ScoreRow :=
  let rows := aggressivenessFactorRows expFn laps tele
  let scores := (normaliseSeries ((rows.map (·.rawScore)).map some)).map (Option.map (qclip 0 1))
  sortScoreRows (List.zipWith (fun (r : AggrFactors) s => ⟨r.driver, r.lapNumber, s⟩) rows scores)

/-- `sort_values(["Driver", "LapNumber"])` ordering on lap rows. -/
def lapRowLe (a b : LapRow) : Prop :=
  a.driver < b.driver ∨ (a.driver = b.driver ∧ a.lapNumber ≤ b.lapNumber)

instance : DecidableRel lapRowLe := fun a b => by
  unfold lapRowLe; infer_instance

def sortLapRows (l : List LapRow) : List LapRow := List.insertionSort lapRowLe l

/-- Mean of a window (used by pandas' rolling mean). -/
def sampleMean (w : List ℚ) : ℚ := w.sum / (w.length : ℚ)

/-- Sample variance with `ddof = 1` (what pandas' rolling `std` squares). -/
def sampleVar (w : List ℚ) : ℚ :=
  ((w.map fun x => (x - sampleMean w) ^ 2).sum) / ((w.length : ℚ) - 1)

/-- `_rolling_variability` (lines 286–290) applied to one ordered group:
3-wide rolling sample std over mean with at least 2 observations, the result
defaulting to 0.1 where the window is too short or the mean is zero
(`mean.replace(0, nan)` followed by `fillna(0.1)`). -/
def rollingVariability (sqrtFn : ℚ → ℚ) (values : List ℚ) : List ℚ :=
  (List.range values.length).map fun i =>
    let w := (values.take (i + 1)).drop (i + 1 - 3)
    if w.length < 2 then 0.1
    else
      let mu := sampleMean w
      if mu = 0 then 0.1 else sqrtFn (sampleVar w) / mu

/-- `groupby(key).transform(f)` for a float column: each row receives the
value `f` computes for its position inside its own group, groups taken in row
order. -/
def groupTransformQ {α : Type} (keyOf : α → String) (valOf : α → ℚ)
    (f : List ℚ → List ℚ) (rows : List α) : List ℚ :=
  (List.range rows.length).map fun i =>
    match rows[i]? with
    | none => 0
    | some r =>
      let g := rows.filter fun x => keyOf x == keyOf r
      let pos := ((rows.take i).filter fun x => keyOf x == keyOf r).length
      (f (g.map valOf)).getD pos 0

/-- `groupby(key).transform(f)` for a possibly missing column. -/
def groupTransformO {α : Type} (keyOf : α → String) (valOf : α → Option ℚ)
    (f : List (Option ℚ) → List (Option ℚ)) (rows : List α) : List (Option ℚ) :=
  (List.range rows.length).map fun i =>
    match rows[i]? with
    | none => none
    | some r =>
      let g := rows.filter fun x => keyOf x == keyOf r
      let pos := ((rows.take i).filter fun x => keyOf x == keyOf r).length
      (f (g.map valOf)).getD pos none

/-- `Series.diff()` within one group: current minus previous, `NaN` first and
around missing operands. -/
def diffList (vs : List (Option ℚ)) : List (Option ℚ) :=
  (List.range vs.length).map fun i =>
    if i = 0 then none
    else omap2 (fun a b => a - b) (vs.getD i none) (vs.getD (i - 1) none)

/-- Per-driver best sector time with zeros replaced by `NaN`
(lines 308–312). -/
def bestSectorOf (rows : List LapRow) (d : String) (sel : LapRow → Option ℚ) : Option ℚ :=
  match listMin ((rows.filter fun r => r.driver == d).filterMap sel) with
  | some m => if m = 0 then none else some m
  | none => none

/-- One sector's deviation term inside `sector_consistency` (lines 314–317):
`1 - |sector - best| / best`, infinities impossible after the zero
replacement, missing values defaulting to 0.1. -/
def sectorDeviation (rows : List LapRow) (r : LapRow) (sel : LapRow → Option ℚ) : ℚ :=
  match sel r, bestSectorOf rows r.driver sel with
  | some s, some b => 1 - |s - b| / b
  | _, _ => 0.1

/-- `sector_consistency` (lines 314–320): mean of the three deviations,
clipped to `[0.1, 1.0]`. -/
def sectorConsistency (rows : List LapRow) (r : LapRow) : ℚ :=
  qclip 0.1 1
    ((sectorDeviation rows r (·.sector1) + sectorDeviation rows r (·.sector2)
      + sectorDeviation rows r (·.sector3)) / 3)

/-- The per-(driver, lap) telemetry aggregate of `calculate_confidence`
(lines 329–336). -/
structure ConfTele where
  driver : String
  lapNumber : ℤ
  avgThrottle : Option ℚ
  brakeOn : ℚ
deriving DecidableEq, Repr, Inhabited

def confTeleAgg (tele : List TeleRow) : List ConfTele :=
  (teleKeys tele).map fun k =>
    let g := teleGroup tele k
    { driver := k.1, lapNumber := k.2,
      avgThrottle := omean (g.map (·.throttle)),
      brakeOn := boolMean (g.map (·.brake)) }

def findConfTele (agg : List ConfTele) (d : String) (n : ℤ) : Option ConfTele :=
  agg.find? fun a => a.driver == d && a.lapNumber == n

def confTeleLe (a b : ConfTele) : Prop :=
  a.driver < b.driver ∨ (a.driver = b.driver ∧ a.lapNumber ≤ b.lapNumber)

instance : DecidableRel confTeleLe := fun a b => by
  unfold confTeleLe; infer_instance

/-- `brake_variability` (lines 338–343): rolling variability of the brake
ratio over the aggregate table sorted by driver and lap, realigned to the
aggregate's unique keys. -/
def brakeVariabilityOf (sqrtFn : ℚ → ℚ) (agg : List ConfTele) (d : String) (n : ℤ) :
    Option ℚ :=
  let sortedAgg := List.insertionSort confTeleLe agg
  let vars := groupTransformQ (·.driver) (·.brakeOn) (rollingVariability sqrtFn) sortedAgg
  ((sortedAgg.zip vars).find? fun p => p.1.driver == d && p.1.lapNumber == n).map (·.2)

/-- The fixed linear combination producing the confidence `raw_score`
(lines 366–372). -/
def rawScoreConfidence (lapCons sectorCons throttle brakeSmooth pit : ℚ) : ℚ :=
  0.35 * lapCons + 0.25 * sectorCons + 0.20 * throttle + 0.15 * brakeSmooth + 0.05 * pit

/-- The factor columns of `calculate_confidence` (lines 293–372), one record
per filtered lap row in sorted row order.  (The merged
`brake_on_time_ratio` column is filled at lines 347–349 but feeds no factor,
so it is omitted.) -/
structure ConfFactors where
  driver : String
  lapNumber : ℤ
  lapConsistencyFactor : ℚ
  throttleFactor : ℚ
  sectorConsistencyFactor : ℚ
  brakeSmoothnessFactor : ℚ
  pitFactor : ℚ
  rawScore : ℚ
deriving DecidableEq, Repr, Inhabited

def confidenceFactorRows (sqrtFn : ℚ → ℚ) (laps : List LapRow) (tele : List TeleRow) :
    List ConfFactors :=
  let filtered := sortLapRows (lapTimeFilter laps)
  let lapVar := groupTransformQ (·.driver) (fun r => r.lapTime.getD 0)
    (rollingVariability sqrtFn) filtered
  let agg := confTeleAgg tele
  let throttleCol : List (Option ℚ) :=
    filtered.map fun r => (findConfTele agg r.driver r.lapNumber).bind (·.avgThrottle)
  let throttleMean := omean throttleCol
  let bvarCol : List (Option ℚ) :=
    filtered.map fun r => brakeVariabilityOf sqrtFn agg r.driver r.lapNumber
  let bvarMean := omean bvarCol
  (filtered.zip lapVar).map fun p =>
    let r := p.1
    let m := findConfTele agg r.driver r.lapNumber
    let avgThrottle := (ofill (m.bind (·.avgThrottle)) throttleMean).getD 50
    let brakeVar := (ofill (brakeVariabilityOf sqrtFn agg r.driver r.lapNumber) bvarMean).getD 0.1
    let lapConsistencyFactor := 1 - qclip 0 1 p.2
    let throttleFactor := qclip 0 1 (avgThrottle / 100)
    let sectorConsistencyFactor := qclip 0 1 (sectorConsistency filtered r)
    let brakeSmoothnessFactor := 1 - qclip 0 1 brakeVar
    let pitFactor : ℚ := if r.pitIn = none ∧ r.pitOut = none then 1 else 0.6
    { driver := r.driver, lapNumber := r.lapNumber,
      lapConsistencyFactor := lapConsistencyFactor, throttleFactor := throttleFactor,
      sectorConsistencyFactor := sectorConsistencyFactor,
      brakeSmoothnessFactor := brakeSmoothnessFactor, pitFactor := pitFactor,
      rawScore := rawScoreConfidence lapConsistencyFactor sectorConsistencyFactor
        throttleFactor brakeSmoothnessFactor pitFactor }

/-- `calculate_confidence` (lines 293–381). -/
def calculateConfidence (sqrtFn : ℚ → ℚ) (laps : List LapRow) (tele : List TeleRow) :
    List ScoreRow :=
  let rows := confidenceFactorRows sqrtFn laps tele
  let scores := (normaliseSeries ((rows.map (·.rawScore)).map some)).map (Option.map (qclip 0 1))
  sortScoreRows (List.zipWith (fun (r : ConfFactors) s => ⟨r.driver, r.lapNumber, s⟩) rows scores)

/-- The race-control lap bucket of one event (line 409):
`to_numeric(...).fillna(0).astype(int)` — a missing lap number is coerced
to lap 0. -/
def rcBucket (e : RCEvent) : ℤ := pyInt (e.lap.getD 0)

/-- Number of race-control events in one lap bucket. -/
def countEventsAt (rc : List RCEvent) (n : ℤ) : ℕ := rc.countP fun e => rcBucket e == n

/-- The distinct lap buckets (`groupby("Lap")` index, lap 0 included). -/
def rcBuckets (rc : List RCEvent) : List ℤ := (rc.map rcBucket).dedup

/-- `max_events` (line 411): maximum bucket count, 1 for an empty table. -/
def maxEvents (rc : List RCEvent) : ℚ :=
  (listMax ((rcBuckets rc).map fun b => ((countEventsAt rc b : ℕ) : ℚ))).getD 1

/-- `race_control_intensity` for one lap number (lines 409–414): the bucket
count over `max_events` for laps with events, else the `reindex`/`fillna`
zero. -/
def raceControlIntensity (rc : List RCEvent) (n : ℤ) : ℚ :=
  if n ∈ rcBuckets rc then ((countEventsAt rc n : ℕ) : ℚ) / maxEvents rc else 0

/-- The fixed linear combination producing the frustration `raw_score`
(lines 420–425). -/
def rawScoreFrustration (loss positionsLost raceControl pit : ℚ) : ℚ :=
  0.55 * loss + 0.25 * positionsLost + 0.15 * raceControl + 0.05 * pit

/-- The component columns of `calculate_frustration` (lines 384–414), one
record per filtered lap row in sorted row order. -/
structure FrusFactors where
  driver : String
  lapNumber : ℤ
  relativeLoss : ℚ
  positionsLost : ℚ
  pitStopFlag : ℚ
  rcIntensity : ℚ
deriving DecidableEq, Repr, Inhabited

def frustrationFactorRows (laps : List LapRow) (rc : List RCEvent) : List FrusFactors :=
  let filtered := sortLapRows (lapTimeFilter laps)
  let best := groupTransformQ (·.driver) (fun r => r.lapTime.getD 0)
    (fun vs => vs.map fun _ => (listMin vs).getD 0) filtered
  let posDiff := groupTransformO (·.driver) (·.position) diffList filtered
  (List.range filtered.length).map fun i =>
    match filtered[i]? with
    | none => default
    | some r =>
      let b := best.getD i 0
      let rel : Option ℚ := if b = 0 then none else some ((r.lapTime.getD 0 - b) / b)
      let change := (posDiff.getD i none).getD 0
      { driver := r.driver, lapNumber := r.lapNumber,
        relativeLoss := (rel.map fun x => max 0 x).getD 0,
        positionsLost := max 0 change,
        pitStopFlag := if r.pitIn ≠ none ∨ r.pitOut ≠ none then 1 else 0,
        rcIntensity := raceControlIntensity rc r.lapNumber }

/-- `calculate_frustration` (lines 384–434): the loss, position and
race-control components are each min-max normalised before the weighted
combination; the pit flag enters unnormalised. -/
def calculateFrustration (laps : List LapRow) (rc : List RCEvent) : List ScoreRow :=
  let rows := frustrationFactorRows laps rc
  let lossC := normaliseSeries ((rows.map (·.relativeLoss)).map some)
  let posC := normaliseSeries ((rows.map (·.positionsLost)).map some)
  let rcC := normaliseSeries ((rows.map (·.rcIntensity)).map some)
  let raws := zipWith4
    (fun l p c (r : FrusFactors) =>
      omap3 (fun a b cc => rawScoreFrustration a b cc r.pitStopFlag) l p c)
    lossC posC rcC rows
  let scores := (normaliseSeries raws).map (Option.map (qclip 0 1))
  sortScoreRows (List.zipWith (fun (r : FrusFactors) s => ⟨r.driver, r.lapNumber, s⟩) rows scores)

/-- The per-(driver, lap) telemetry aggregate of `calculate_pressure`
(lines 464–474), distances already filled to 1000.0 (the brake fill at
line 474 is a no-op: a nonempty group's boolean mean is always defined). -/
structure PressTele where
  driver : String
  lapNumber : ℤ
  brakeOn : ℚ
  avgDistAhead : ℚ
deriving DecidableEq, Repr, Inhabited

def pressTeleAgg (tele : List TeleRow) : List PressTele :=
  (teleKeys tele).map fun k =>
    let g := teleGroup tele k
    { driver := k.1, lapNumber := k.2,
      brakeOn := boolMean (g.map (·.brake)),
      avgDistAhead := (omean (g.map (·.distanceToDriverAhead))).getD 1000 }

def findPressTele (agg : List PressTele) (d : String) (n : ℤ) : Option PressTele :=
  agg.find? fun a => a.driver == d && a.lapNumber == n

/-- A row of `_distance_to_driver_behind`'s output (lines 437–448): the
follower's gap to the car ahead, re-keyed to lap and `position - 1`, rows with
a resulting position below 1 (or a missing position) dropped. -/
structure BehindRow where
  lapNumber : ℤ
  position : ℚ
  distBehind : Option ℚ
deriving DecidableEq, Repr, Inhabited

def distanceToDriverBehind (lapPositions : List (ℤ × String × Option ℚ))
    (agg : List PressTele) : List BehindRow :=
  lapPositions.filterMap fun t =>
    match t.2.2 with
    | some p =>
        if 1 ≤ p - 1 then
          some { lapNumber := t.1, position := p - 1,
                 distBehind := (findPressTele agg t.2.1 t.1).map (·.avgDistAhead) }
        else none
    | none => none

/-- One row of `calculate_pressure`'s merged table after the
distance-behind join (lines 476–485).  The join key `(LapNumber, Position)`
need not be unique on the right, so a left row expands into one row per
match (none matching leaves a single row with a missing distance, filled to
1000.0 afterwards). -/
structure PressBase where
  driver : String
  lapNumber : ℤ
  position : Option ℚ
  tyreLife : ℚ
  brakeOn : ℚ
  avgDistAhead : ℚ
  distBehind : Option ℚ
deriving DecidableEq, Repr, Inhabited

/-- The expansion of one left row under the `(LapNumber, Position)` left
join (line 484): one output row per matching right row, or a single row with
a missing distance when nothing matches. -/
def pressRowExpand (agg : List PressTele) (behind : List BehindRow) (r : LapRow) :
    List PressBase :=
  let m := findPressTele agg r.driver r.lapNumber
  let base : PressBase :=
    { driver := r.driver, lapNumber := r.lapNumber, position := r.position,
      tyreLife := r.tyreLife.getD 0,
      brakeOn := (m.map (·.brakeOn)).getD 0.1,
      avgDistAhead := (m.map (·.avgDistAhead)).getD 1000,
      distBehind := none }
  match behind.filter fun b => b.lapNumber == r.lapNumber && r.position == some b.position with
  | [] => [base]
  | ms => ms.map fun b => { base with distBehind := b.distBehind }

def pressMergedRows (laps : List LapRow) (tele : List TeleRow) : List PressBase :=
  let filtered := lapTimeFilter laps
  let agg := pressTeleAgg tele
  let behind := distanceToDriverBehind
    (filtered.map fun r => (r.lapNumber, r.driver, r.position)) agg
  filtered.flatMap (pressRowExpand agg behind)

/-- The component columns of `calculate_pressure` (lines 487–493), one record
per merged row. -/
structure PressFactors where
  driver : String
  lapNumber : ℤ
  gapAheadComp : ℚ
  gapBehindComp : ℚ
  tyreWearComp : ℚ
  positionComp : ℚ
  lapPhaseComp : ℚ
  brakeComp : ℚ
deriving DecidableEq, Repr, Inhabited

def pressureFactorRows (laps : List LapRow) (tele : List TeleRow) : List PressFactors :=
  let rows := pressMergedRows laps tele
  let filtered := lapTimeFilter laps
  let totalDrivers : ℚ := ((max 1 (filtered.map (·.driver)).dedup.length : ℕ) : ℚ)
  let maxLap : ℚ := ((max 1 ((filtered.map (·.lapNumber)).foldr max 0) : ℤ) : ℚ)
  let tyreMax : ℚ := max 1 ((listMax (rows.map (·.tyreLife))).getD 1)
  rows.map fun r =>
    { driver := r.driver, lapNumber := r.lapNumber,
      gapAheadComp := 1 / (1 + r.avgDistAhead),
      gapBehindComp := 1 / (1 + r.distBehind.getD 1000),
      tyreWearComp := r.tyreLife / tyreMax,
      positionComp := (totalDrivers - r.position.getD totalDrivers) / totalDrivers,
      lapPhaseComp := (r.lapNumber : ℚ) / maxLap,
      brakeComp := qclip 0 1 r.brakeOn }

/-- The fixed linear combination producing the pressure `raw_score`
(lines 502–509), arguments in the code's own order: gap-ahead 0.3,
gap-behind 0.2, tyre wear 0.2, lap phase 0.15, position 0.10, brake 0.05. -/
def rawScorePressure (gapAhead gapBehind tyre lapPhase position brake : ℚ) : ℚ :=
  0.3 * gapAhead + 0.2 * gapBehind + 0.2 * tyre + 0.15 * lapPhase
    + 0.10 * position + 0.05 * brake

/-- Modelled from the spec: the pressure raw-score combination with the
weights `0.30/0.20/0.20/0.15/0.10/0.05` applied "in the order listed" by the
spec — gap-ahead, gap-behind, tyre wear, normalized running position,
lap-phase fraction, brake ratio. -/
def specRawScorePressure (gapAhead gapBehind tyre position lapPhase brake : ℚ) : ℚ :=
  0.30 * gapAhead + 0.20 * gapBehind + 0.20 * tyre + 0.15 * position
    + 0.10 * lapPhase + 0.05 * brake

/-- `calculate_pressure` (lines 451–518): each component is min-max
normalised, then combined by `rawScorePressure`. -/
def calculatePressure (laps : List LapRow) (tele : List TeleRow) : List ScoreRow :=
  let rows := pressureFactorRows laps tele
  let cGapAhead := normaliseSeries ((rows.map (·.gapAheadComp)).map some)
  let cGapBehind := normaliseSeries ((rows.map (·.gapBehindComp)).map some)
  let cTyre := normaliseSeries ((rows.map (·.tyreWearComp)).map some)
  let cPosition := normaliseSeries ((rows.map (·.positionComp)).map some)
  let cLapPhase := normaliseSeries ((rows.map (·.lapPhaseComp)).map some)
  let cBrake := normaliseSeries ((rows.map (·.brakeComp)).map some)
  let raws := zipWith6 (omap6 rawScorePressure) cGapAhead cGapBehind cTyre cLapPhase cPosition cBrake
  let scores := (normaliseSeries raws).map (Option.map (qclip 0 1))
  sortScoreRows (List.zipWith (fun (r : PressFactors) s => ⟨r.driver, r.lapNumber, s⟩) rows scores)

/-- Modelled from the spec: `calculate_pressure` with the raw-score weights
applied in the spec's listed order (position 0.15, lap phase 0.10) instead of
the code's; used to exhibit that the two orders produce different outputs. -/
def calculatePressureSpecWeights (laps : List LapRow) (tele : List TeleRow) : List ScoreRow :=
  let rows := pressureFactorRows laps tele
  let cGapAhead := normaliseSeries ((rows.map (·.gapAheadComp)).map some)
  let cGapBehind := normaliseSeries ((rows.map (·.gapBehindComp)).map some)
  let cTyre := normaliseSeries ((rows.map (·.tyreWearComp)).map some)
  let cPosition := normaliseSeries ((rows.map (·.positionComp)).map some)
  let cLapPhase := normaliseSeries ((rows.map (·.lapPhaseComp)).map some)
  let cBrake := normaliseSeries ((rows.map (·.brakeComp)).map some)
  let raws := zipWith6 (omap6 specRawScorePressure) cGapAhead cGapBehind cTyre cPosition cLapPhase cBrake
  let scores := (normaliseSeries raws).map (Option.map (qclip 0 1))
  sortScoreRows (List.zipWith (fun (r : PressFactors) s => ⟨r.driver, r.lapNumber, s⟩) rows scores)

/-- The per-(driver, lap) telemetry aggregate of `calculate_risk_taking`
(lines 534–550), the speed/RPM/distance columns filled with the aggregate
table's own column means where a group had no finite samples (the DRS and
brake fills at lines 548–549 are no-ops: those shares are defined for every
nonempty group). -/
structure RiskTele where
  driver : String
  lapNumber : ℤ
  maxSpeed : Option ℚ
  avgRpm : Option ℚ
  drsShare : ℚ
  brakeShare : ℚ
  lapDistance : Option ℚ
deriving DecidableEq, Repr, Inhabited

def riskTeleAgg (tele : List TeleRow) : List RiskTele :=
  let raw : List RiskTele := (teleKeys tele).map fun k =>
    let g := teleGroup tele k
    { driver := k.1, lapNumber := k.2,
      maxSpeed := seriesMax (g.map (·.speed)),
      avgRpm := omean (g.map (·.rpm)),
      drsShare := ((g.countP fun t => decide (0 < t.drs.getD 0)) : ℚ) / (g.length : ℚ),
      brakeShare := boolMean (g.map (·.brake)),
      lapDistance := seriesMax (g.map (·.distance)) }
  let msMean := omean (raw.map (·.maxSpeed))
  let rpmMean := omean (raw.map (·.avgRpm))
  let ldMean := omean (raw.map (·.lapDistance))
  raw.map fun a =>
    { a with maxSpeed := ofill a.maxSpeed msMean,
             avgRpm := ofill a.avgRpm rpmMean,
             lapDistance := ofill a.lapDistance ldMean }

def findRiskTele (agg : List RiskTele) (d : String) (n : ℤ) : Option RiskTele :=
  agg.find? fun a => a.driver == d && a.lapNumber == n

/-- The fixed linear combination producing the risk-taking `raw_score`
(lines 566–573). -/
def rawScoreRisk (speed rpm drs brakeOff gain lapPhase : ℚ) : ℚ :=
  0.35 * speed + 0.20 * rpm + 0.20 * drs + 0.15 * brakeOff + 0.07 * gain + 0.03 * lapPhase

/-- The merged per-row inputs of `calculate_risk_taking` (lines 521–557), one
record per filtered lap row in sorted row order.  Speed and RPM are filled
with the merged column's mean (line 553–554) and may remain missing when the
whole column is; the merged `lap_distance` column (line 557) feeds no
component and is omitted. -/
structure RiskBase where
  driver : String
  lapNumber : ℤ
  positionsGained : ℚ
  lapPhase : ℚ
  maxSpeed : Option ℚ
  avgRpm : Option ℚ
  drsShare : ℚ
  brakeShare : ℚ
deriving DecidableEq, Repr, Inhabited

/-- The merged (pre-fill) `max_speed` column of `calculate_risk_taking`. -/
def riskSpeedCol (laps : List LapRow) (tele : List TeleRow) : List (Option ℚ) :=
  (sortLapRows (lapTimeFilter laps)).map fun r =>
    (findRiskTele (riskTeleAgg tele) r.driver r.lapNumber).bind (·.maxSpeed)

/-- The merged (pre-fill) `avg_rpm` column of `calculate_risk_taking`. -/
def riskRpmCol (laps : List LapRow) (tele : List TeleRow) : List (Option ℚ) :=
  (sortLapRows (lapTimeFilter laps)).map fun r =>
    (findRiskTele (riskTeleAgg tele) r.driver r.lapNumber).bind (·.avgRpm)

def riskFactorRows (laps : List LapRow) (tele : List TeleRow) : List RiskBase :=
  let filtered := sortLapRows (lapTimeFilter laps)
  let maxLap : ℚ := ((max 1 ((filtered.map (·.lapNumber)).foldr max 0) : ℤ) : ℚ)
  let posDiff := groupTransformO (·.driver) (·.position) diffList filtered
  let agg := riskTeleAgg tele
  let msMean := omean (riskSpeedCol laps tele)
  let rpmMean := omean (riskRpmCol laps tele)
  (List.range filtered.length).map fun i =>
    match filtered[i]? with
    | none => default
    | some r =>
      let m := findRiskTele agg r.driver r.lapNumber
      let change := (posDiff.getD i none).getD 0
      { driver := r.driver, lapNumber := r.lapNumber,
        positionsGained := max 0 (-change),
        lapPhase := (r.lapNumber : ℚ) / maxLap,
        maxSpeed := ofill (m.bind (·.maxSpeed)) msMean,
        avgRpm := ofill (m.bind (·.avgRpm)) rpmMean,
        drsShare := (m.map (·.drsShare)).getD 0,
        brakeShare := (m.map (·.brakeShare)).getD 0.5 }

/-- `calculate_risk_taking` (lines 521–582): all six components are min-max
normalised before the weighted combination. -/
def calculateRiskTaking (laps : List LapRow) (tele : List TeleRow) : List ScoreRow :=
  let rows := riskFactorRows laps tele
  let cSpeed := normaliseSeries (rows.map (·.maxSpeed))
  let cRpm := normaliseSeries (rows.map (·.avgRpm))
  let cDrs := normaliseSeries ((rows.map (·.drsShare)).map some)
  let cBrakeOff := normaliseSeries ((rows.map fun r => 1 - r.brakeShare).map some)
  let cGain := normaliseSeries ((rows.map (·.positionsGained)).map some)
  let cPhase := normaliseSeries ((rows.map (·.lapPhase)).map some)
  let raws := zipWith6 (omap6 rawScoreRisk) cSpeed cRpm cDrs cBrakeOff cGain cPhase
  let scores := (normaliseSeries raws).map (Option.map (qclip 0 1))
  sortScoreRows (List.zipWith (fun (r : RiskBase) s => ⟨r.driver, r.lapNumber, s⟩) rows scores)

/-- The five-emotion mapping of one driver before the lap-local
renormalization (lines 647–653), entries possibly missing. -/
structure EmotionsOpt where
  aggressiveness : Option ℚ
  confidence : Option ℚ
  frustration : Option ℚ
  pressure : Option ℚ
  riskTaking : Option ℚ
deriving DecidableEq, Repr, Inhabited

/-- The five-emotion mapping after `normalize_emotions_for_lap`: every entry
is a plain number. -/
structure EmotionsVal where
  aggressiveness : ℚ
  confidence : ℚ
  frustration : ℚ
  pressure : ℚ
  riskTaking : ℚ
deriving DecidableEq, Repr, Inhabited

/-- One driver record handed to `normalize_emotions_for_lap`
(lines 643–654). -/
structure DriverInfo where
  driver : String
  position : ℤ
  color : String
  emotions : EmotionsOpt
deriving DecidableEq, Repr, Inhabited

/-- One driver record of the final dataset. -/
structure DriverEntry where
  driver : String
  position : ℤ
  color : String
  emotions : EmotionsVal
deriving DecidableEq, Repr, Inhabited

/-- The per-emotion core of `normalize_emotions_for_lap` (lines 585–614):
the range over the lap's defined values is floored at `1e-6`
(`{"min": 0.0, "range": 1.0}` when no value is defined), every defined value
is mapped to `(v - min) / range` clipped to `[0, 1]`, and a missing value
becomes exactly 0.5. -/
def normalizeEmotionValues (vals : List (Option ℚ)) : List ℚ :=
  let defined := vals.filterMap id
  let mn : ℚ := match listMin defined with | some m => m | none => 0
  let rg : ℚ :=
    match listMin defined, listMax defined with
    | some m, some mx => max (mx - m) (1 / 1000000)
    | _, _ => 1
  vals.map fun v =>
    match v with
    | none => 1 / 2
    | some x => qclip 0 1 ((x - mn) / rg)

/-- `normalize_emotions_for_lap` (lines 585–614): the five emotion dimensions
are renormalized independently across the lap's drivers. -/
def normalizeEmotionsForLap (drivers : List DriverInfo) : List DriverEntry :=
  let aggrN := normalizeEmotionValues (drivers.map fun d => d.emotions.aggressiveness)
  let confN := normalizeEmotionValues (drivers.map fun d => d.emotions.confidence)
  let frusN := normalizeEmotionValues (drivers.map fun d => d.emotions.frustration)
  let presN := normalizeEmotionValues (drivers.map fun d => d.emotions.pressure)
  let riskN := normalizeEmotionValues (drivers.map fun d => d.emotions.riskTaking)
  (List.range drivers.length).map fun i =>
    match drivers[i]? with
    | none => default
    | some d =>
      { driver := d.driver, position := d.position, color := d.color,
        emotions :=
          { aggressiveness := aggrN.getD i 0, confidence := confN.getD i 0,
            frustration := frusN.getD i 0, pressure := presN.getD i 0,
            riskTaking := riskN.getD i 0 } }

/-- The static driver colour table (lines 26–44). -/
def teamColorTable : List (String × String) :=
  [("HAM", "#00D2BE"), ("BOT", "#00D2BE"), ("VER", "#0600EF"), ("PER", "#0600EF"),
   ("LEC", "#DC0000"), ("SAI", "#DC0000"), ("NOR", "#FF8700"), ("RIC", "#FF8700"),
   ("ALO", "#0090FF"), ("OCO", "#0090FF"), ("VET", "#006F62"), ("STR", "#006F62"),
   ("GAS", "#2B4562"), ("TSU", "#2B4562"), ("LAT", "#005AFF"), ("GIO", "#B12040"),
   ("MSC", "#FFFFFF")]

/-- `TEAM_COLORS.get(driver, "#808080")` (line 646). -/
def teamColorOf (d : String) : String :=
  ((teamColorTable.find? fun p => p.1 == d).map (·.2)).getD "#808080"

/-- The five score tables handed to `build_lap_dataset` (lines 718–724). -/
structure ScoreTables where
  aggressiveness : List ScoreRow
  confidence : List ScoreRow
  frustration : List ScoreRow
  pressure : List ScoreRow
  riskTaking : List ScoreRow
deriving DecidableEq, Repr, Inhabited

/-- The emotion lookup of `build_lap_dataset` (lines 635–641): first row of
the score table matching driver and lap, else missing. -/
def scoreLookup (df : List ScoreRow) (d : String) (n : ℤ) : Option ℚ :=
  (df.find? fun s => s.driver == d && s.lapNumber == n).bind (·.score)

/-- One entry of `lap_data`. -/
structure LapEntry where
  lap : ℤ
  drivers : List DriverEntry
deriving DecidableEq, Repr, Inhabited

/-- The `active` filter of `build_lap_dataset` (line 625): rows of the lap
with a present, strictly positive position. -/
def activeRows (laps : List LapRow) (n : ℤ) : List LapRow :=
  laps.filter fun r =>
    r.lapNumber == n &&
      match r.position with
      | some p => decide (0 < p)
      | none => false

/-- `sort_values("Position")` ordering on the active rows (whose positions
are all present). -/
def posLe (a b : LapRow) : Prop := a.position.getD 0 ≤ b.position.getD 0

instance : DecidableRel posLe := fun a b => by
  unfold posLe; infer_instance

/-- `available_laps` (line 620): the ascending sort of the distinct lap
numbers of the laps table handed to the builder. -/
def availableLaps (laps : List LapRow) : List ℤ :=
  List.insertionSort ((· ≤ ·) : ℤ → ℤ → Prop) ((laps.map (·.lapNumber)).dedup)

/-- The `drivers_info` list of one lap (lines 629–655): active drivers in
ascending position order with their five looked-up scores. -/
def lapDriversInfo (laps : List LapRow) (scores : ScoreTables) (n : ℤ) : List DriverInfo :=
  (List.insertionSort posLe (activeRows laps n)).map fun r =>
    { driver := r.driver, position := pyInt (r.position.getD 0),
      color := teamColorOf r.driver,
      emotions :=
        { aggressiveness := scoreLookup scores.aggressiveness r.driver n,
          confidence := scoreLookup scores.confidence r.driver n,
          frustration := scoreLookup scores.frustration r.driver n,
          pressure := scoreLookup scores.pressure r.driver n,
          riskTaking := scoreLookup scores.riskTaking r.driver n } }

/-- `build_lap_dataset` (lines 617–663): returns `(lap_data, available_laps)`;
a lap with no active driver is skipped (the second guard at line 657 mirrors
the code and is redundant). -/
def buildLapDataset (laps : List LapRow) (scores : ScoreTables) :
    List (ℤ × LapEntry) × List ℤ :=
  let avail := availableLaps laps
  let lapData := avail.filterMap fun n =>
    if (activeRows laps n).isEmpty then none
    else
      let infos := lapDriversInfo laps scores n
      if infos.isEmpty then none
      else some (n, { lap := n, drivers := normalizeEmotionsForLap infos })
  (lapData, avail)

/-- The structured output document (`payload` of `save_json_data`,
lines 666–672). -/
structure Payload where
  availableLaps : List ℤ
  lapData : List (ℤ × LapEntry)
deriving DecidableEq, Repr, Inhabited

/-- The full scoring pipeline of `main` (lines 702–728) from the three loaded
tables to the output document, parametric in the two transcendental
primitives. -/
def runPipeline (expFn sqrtFn : ℚ → ℚ) (laps : List LapRow) (tele : List TeleRow)
    (rc : List RCEvent) : Payload :=
  let scores : ScoreTables :=
    { aggressiveness := calculateAggressiveness expFn laps tele,
      confidence := calculateConfidence sqrtFn laps tele,
      frustration := calculateFrustration laps rc,
      pressure := calculatePressure laps tele,
      riskTaking := calculateRiskTaking laps tele }
  let built := buildLapDataset laps scores
  { availableLaps := built.2, lapData := built.1 }

def ratStr (q : ℚ) : String := toString q.num ++ "/" ++ toString q.den

def driverEntryStr (d : DriverEntry) : String :=
  d.driver ++ "|" ++ toString d.position ++ "|" ++ d.color ++ "|"
    ++ ratStr d.emotions.aggressiveness ++ "," ++ ratStr d.emotions.confidence ++ ","
    ++ ratStr d.emotions.frustration ++ "," ++ ratStr d.emotions.pressure ++ ","
    ++ ratStr d.emotions.riskTaking

def lapEntryStr (p : ℤ × LapEntry) : String :=
  toString p.1 ++ ":" ++ toString p.2.lap ++ ":"
    ++ String.intercalate ";" (p.2.drivers.map driverEntryStr)

/-- The serialized output document of `save_json_data` (lines 666–672),
modelling `json.dumps(payload, indent=2)` as a fixed deterministic rendering
of the payload structure. -/
def serializePayload (p : Payload) : String :=
  String.intercalate "," (p.availableLaps.map toString) ++ "\n"
    ++ String.intercalate "\n" (p.lapData.map lapEntryStr)

/-- A lap row with the fields the concrete examples need; every other column
is missing. -/
def mkLapRow (d : String) (n : ℤ) (t : Option ℚ) (p : Option ℚ) : LapRow :=
  { driver := d, lapNumber := n, lapTime := t, sector1 := none, sector2 := none,
    sector3 := none, compound := none, tyreLife := none, position := p,
    pitIn := none, pitOut := none }

/-- Empty score tables, as produced by the five transforms on fully filtered
input. -/
def emptyScores : ScoreTables :=
  { aggressiveness := [], confidence := [], frustration := [], pressure := [],
    riskTaking := [] }

/-- Two laps of a single driver on which the implemented and the specified
pressure weight orders produce different outputs. -/
def pressureOrderLaps : List LapRow :=
  [mkLapRow "VER" 1 (some 90) (some 1), mkLapRow "VER" 2 (some 90) (some 2)]

/-- One driver whose recorded lap time is zero seconds on lap 10 while
holding position 1. -/
def zeroTimeLaps : List LapRow := [mkLapRow "VER" 10 (some 0) (some 1)]

/-- A single lap whose only row has no valid position. -/
def noPositionLaps : List LapRow := [mkLapRow "VER" 1 (some 90) none]

/-- Three timed laps of VER plus five junk drivers whose rows are filtered
out (they only raise the driver count); lap 1 exhibits out-of-range
aggressiveness factors. -/
def aggrRangeLaps : List LapRow :=
  [mkLapRow "VER" 1 (some (3965 / 1000)) (some 1),
   mkLapRow "VER" 5 (some 1) none,
   mkLapRow "VER" 10 (some 100) none,
   mkLapRow "BOT" 1 none none,
   mkLapRow "PER" 1 none none,
   mkLapRow "HAM" 1 none none,
   mkLapRow "NOR" 1 none none,
   mkLapRow "LEC" 1 none none]

/-- One driver record with every emotion defined and equal to 0.7. -/
def singleDriverInfo : List DriverInfo :=
  [{ driver := "VER", position := 1, color := "#0600EF",
     emotions := { aggressiveness := some (7 / 10), confidence := some (7 / 10),
                   frustration := some (7 / 10), pressure := some (7 / 10),
                   riskTaking := some (7 / 10) } }]

/-- Two driver records sharing one identical defined value per emotion. -/
def twoEqualDriverInfo : List DriverInfo :=
  [{ driver := "VER", position := 1, color := "#0600EF",
     emotions := { aggressiveness := some (7 / 10), confidence := some (7 / 10),
                   frustration := some (7 / 10), pressure := some (7 / 10),
                   riskTaking := some (7 / 10) } },
   { driver := "HAM", position := 2, color := "#00D2BE",
     emotions := { aggressiveness := some (7 / 10), confidence := some (7 / 10),
                   frustration := some (7 / 10), pressure := some (7 / 10),
                   riskTaking := some (7 / 10) } }]

/-- Two drivers on lap 1, of whom only `VER` has telemetry. -/
def twoDriverLaps : List LapRow :=
  [mkLapRow "VER" 1 (some 90) (some 1), mkLapRow "BOT" 1 (some 91) (some 2)]

/-- A single telemetry sample for `VER` on lap 1. -/
def verOnlyTele : List TeleRow :=
  [{ driver := "VER", lapNumber := 1, throttle := some 80, brake := false,
     drs := some 0, distanceToDriverAhead := some 5, speed := some 300,
     rpm := some 11000, distance := some 100 }]

/-- Three race-control events: one with a missing lap number and two on
lap 3. -/
def rcExample : List RCEvent := [{ lap := none }, { lap := some 3 }, { lap := some 3 }]

theorem listMin_eq_none_iff {l : List ℚ} : listMin l = none ↔ l = [] := by
  cases l with
  | nil => simp [listMin]
  | cons a xs =>
    rw [listMin]
    cases listMin xs <;> simp

theorem listMax_eq_none_iff {l : List ℚ} : listMax l = none ↔ l = [] := by
  cases l with
  | nil => simp [listMax]
  | cons a xs =>
    rw [listMax]
    cases listMax xs <;> simp

theorem listMin_spec : ∀ {l : List ℚ} {m : ℚ}, listMin l = some m → m ∈ l ∧ ∀ x ∈ l, m ≤ x := by
  intro l
  induction l with
  | nil => intro m h; simp [listMin] at h
  | cons a xs ih =>
    intro m h
    rw [listMin] at h
    cases hx : listMin xs with
    | none =>
      rw [hx] at h
      simp only [Option.some.injEq] at h
      subst h
      have hnil : xs = [] := listMin_eq_none_iff.mp hx
      subst hnil
      refine ⟨List.mem_singleton_self a, ?_⟩
      intro x hxm
      rw [List.mem_singleton] at hxm
      subst hxm; exact le_refl _
    | some m2 =>
      rw [hx] at h
      simp only [Option.some.injEq] at h
      subst h
      obtain ⟨hm2, hle⟩ := ih hx
      constructor
      · rcases min_choice a m2 with hc | hc <;> rw [hc]
        · exact List.mem_cons_self a xs
        · exact List.mem_cons_of_mem a hm2
      · intro x hxm
        rcases List.mem_cons.mp hxm with rfl | hxs
        · exact min_le_left _ _
        · exact le_trans (min_le_right _ _) (hle x hxs)

theorem listMax_spec : ∀ {l : List ℚ} {m : ℚ}, listMax l = some m → m ∈ l ∧ ∀ x ∈ l, x ≤ m := by
  intro l
  induction l with
  | nil => intro m h; simp [listMax] at h
  | cons a xs ih =>
    intro m h
    rw [listMax] at h
    cases hx : listMax xs with
    | none =>
      rw [hx] at h
      simp only [Option.some.injEq] at h
      subst h
      have hnil : xs = [] := listMax_eq_none_iff.mp hx
      subst hnil
      refine ⟨List.mem_singleton_self a, ?_⟩
      intro x hxm
      rw [List.mem_singleton] at hxm
      subst hxm; exact le_refl _
    | some m2 =>
      rw [hx] at h
      simp only [Option.some.injEq] at h
      subst h
      obtain ⟨hm2, hle⟩ := ih hx
      constructor
      · rcases max_choice a m2 with hc | hc <;> rw [hc]
        · exact List.mem_cons_self a xs
        · exact List.mem_cons_of_mem a hm2
      · intro x hxm
        rcases List.mem_cons.mp hxm with rfl | hxs
        · exact le_max_left _ _
        · exact le_trans (hle x hxs) (le_max_right _ _)

theorem qclip_bounds {lo hi x : ℚ} (h : lo ≤ hi) : lo ≤ qclip lo hi x ∧ qclip lo hi x ≤ hi := by
  unfold qclip
  exact ⟨le_max_left _ _, max_le h (min_le_left _ _)⟩

theorem omean_eq_none {col : List (Option ℚ)} (h : omean col = none) : ∀ v ∈ col, v = none := by
  intro v hv
  unfold omean at h
  cases hd : col.filterMap id with
  | nil =>
    rw [List.filterMap_eq_nil_iff] at hd
    cases hvv : v with
    | none => rfl
    | some q => have := hd v hv; rw [hvv] at this; simp at this
  | cons a xs => rw [hd] at h; simp at h

theorem omean_nonneg {col : List (Option ℚ)} {m : ℚ}
    (hnn : ∀ v ∈ col, ∀ q : ℚ, v = some q → 0 ≤ q) (h : omean col = some m) : 0 ≤ m := by
  unfold omean at h
  cases hd : col.filterMap id with
  | nil => rw [hd] at h; simp at h
  | cons a xs =>
    rw [hd] at h
    simp only [Option.some.injEq] at h
    subst h
    apply div_nonneg
    · apply List.sum_nonneg
      intro q hq
      rw [← hd] at hq
      obtain ⟨v, hv, hvq⟩ := List.mem_filterMap.mp hq
      exact hnn v hv q hvq
    · positivity

theorem mem_zipWith_pair {α β γ : Type} {f : α → β → γ} :
    ∀ {as : List α} {bs : List β} {c : γ}, c ∈ List.zipWith f as bs →
      ∃ a ∈ as, ∃ b ∈ bs, c = f a b := by
  intro as
  induction as with
  | nil => intro bs c h; simp at h
  | cons a as ih =>
    intro bs c h
    cases bs with
    | nil => simp at h
    | cons b bs =>
      rw [List.zipWith_cons_cons] at h
      rcases List.mem_cons.mp h with rfl | hm
      · exact ⟨a, List.mem_cons_self _ _, b, List.mem_cons_self _ _, rfl⟩
      · obtain ⟨a2, ha2, b2, hb2, rfl⟩ := ih hm
        exact ⟨a2, List.mem_cons_of_mem _ ha2, b2, List.mem_cons_of_mem _ hb2, rfl⟩

theorem zipWith_mem_of_mem_left {α β γ : Type} {f : α → β → γ} :
    ∀ {as : List α} {bs : List β} {a : α}, as.length = bs.length → a ∈ as →
      ∃ b ∈ bs, f a b ∈ List.zipWith f as bs := by
  intro as
  induction as with
  | nil => intro bs a _ h; simp at h
  | cons x xs ih =>
    intro bs a hlen ha
    cases bs with
    | nil => simp at hlen
    | cons y ys =>
      simp only [List.length_cons, Nat.succ.injEq] at hlen
      rcases List.mem_cons.mp ha with rfl | hxs
      · exact ⟨y, List.mem_cons_self _ _, List.mem_cons_self _ _⟩
      · obtain ⟨b, hb, hmem⟩ := ih hlen hxs
        exact ⟨b, List.mem_cons_of_mem _ hb, List.mem_cons_of_mem _ hmem⟩

theorem zipWith4_nil_first {α β γ δ ε : Type} {f : α → β → γ → δ → ε}
    {bs : List β} {cs : List γ} {ds : List δ} : zipWith4 f [] bs cs ds = [] := by
  cases bs <;> cases cs <;> cases ds <;> rfl

theorem zipWith4_nil_of_nil {α β γ δ ε : Type} {f : α → β → γ → δ → ε}
    {as : List α} {bs : List β} {cs : List γ} {ds : List δ}
    (h : bs = [] ∨ cs = [] ∨ ds = []) : zipWith4 f as bs cs ds = [] := by
  cases as with
  | nil => exact zipWith4_nil_first
  | cons a as =>
    rcases h with rfl | rfl | rfl
    · cases cs <;> cases ds <;> rfl
    · cases bs <;> cases ds <;> rfl
    · cases bs <;> cases cs <;> rfl

theorem mem_zipWith4 {α β γ δ ε : Type} {f : α → β → γ → δ → ε} :
    ∀ {as : List α} {bs : List β} {cs : List γ} {ds : List δ} {x : ε},
      x ∈ zipWith4 f as bs cs ds →
      ∃ a ∈ as, ∃ b ∈ bs, ∃ c ∈ cs, ∃ d ∈ ds, x = f a b c d := by
  intro as
  induction as with
  | nil => intro bs cs ds x h; rw [zipWith4_nil_first] at h; simp at h
  | cons a as ih =>
    intro bs cs ds x h
    cases bs with
    | nil => rw [zipWith4_nil_of_nil (Or.inl rfl)] at h; simp at h
    | cons b bs =>
      cases cs with
      | nil => rw [zipWith4_nil_of_nil (Or.inr (Or.inl rfl))] at h; simp at h
      | cons c cs =>
        cases ds with
        | nil => rw [zipWith4_nil_of_nil (Or.inr (Or.inr rfl))] at h; simp at h
        | cons d ds =>
          rw [zipWith4] at h
          rcases List.mem_cons.mp h with rfl | hm
          · exact ⟨a, List.mem_cons_self _ _, b, List.mem_cons_self _ _,
              c, List.mem_cons_self _ _, d, List.mem_cons_self _ _, rfl⟩
          · obtain ⟨a2, ha, b2, hb, c2, hc, d2, hd, rfl⟩ := ih hm
            exact ⟨a2, List.mem_cons_of_mem _ ha, b2, List.mem_cons_of_mem _ hb,
              c2, List.mem_cons_of_mem _ hc, d2, List.mem_cons_of_mem _ hd, rfl⟩

theorem zipWith4_length {α β γ δ ε : Type} {f : α → β → γ → δ → ε} :
    ∀ {n : ℕ} {as : List α} {bs : List β} {cs : List γ} {ds : List δ},
      as.length = n → bs.length = n → cs.length = n → ds.length = n →
      (zipWith4 f as bs cs ds).length = n := by
  intro n
  induction n with
  | zero =>
    intro as bs cs ds ha hb hc hd
    rw [List.length_eq_zero] at ha hb hc hd
    subst ha; subst hb; subst hc; subst hd; rfl
  | succ k ih =>
    intro as bs cs ds ha hb hc hd
    cases as with
    | nil => simp at ha
    | cons a as =>
      cases bs with
      | nil => simp at hb
      | cons b bs =>
        cases cs with
        | nil => simp at hc
        | cons c cs =>
          cases ds with
          | nil => simp at hd
          | cons d ds =>
            simp only [List.length_cons, Nat.succ.injEq] at ha hb hc hd
            rw [zipWith4, List.length_cons, ih ha hb hc hd]

theorem zipWith6_nil_first {α β γ δ ε ζ η : Type} {f : α → β → γ → δ → ε → ζ → η}
    {bs : List β} {cs : List γ} {ds : List δ} {es : List ε} {gs : List ζ} :
    zipWith6 f [] bs cs ds es gs = [] := by
  cases bs <;> cases cs <;> cases ds <;> cases es <;> cases gs <;> rfl

theorem zipWith6_nil_of_nil {α β γ δ ε ζ η : Type} {f : α → β → γ → δ → ε → ζ → η}
    {as : List α} {bs : List β} {cs : List γ} {ds : List δ} {es : List ε} {gs : List ζ}
    (h : bs = [] ∨ cs = [] ∨ ds = [] ∨ es = [] ∨ gs = []) :
    zipWith6 f as bs cs ds es gs = [] := by
  cases as with
  | nil => exact zipWith6_nil_first
  | cons a as =>
    rcases h with rfl | rfl | rfl | rfl | rfl
    · cases cs <;> cases ds <;> cases es <;> cases gs <;> rfl
    · cases bs <;> cases ds <;> cases es <;> cases gs <;> rfl
    · cases bs <;> cases cs <;> cases es <;> cases gs <;> rfl
    · cases bs <;> cases cs <;> cases ds <;> cases gs <;> rfl
    · cases bs <;> cases cs <;> cases ds <;> cases es <;> rfl

theorem mem_zipWith6 {α β γ δ ε ζ η : Type} {f : α → β → γ → δ → ε → ζ → η} :
    ∀ {as : List α} {bs : List β} {cs : List γ} {ds : List δ} {es : List ε} {gs : List ζ} {x : η},
      x ∈ zipWith6 f as bs cs ds es gs →
      ∃ a ∈ as, ∃ b ∈ bs, ∃ c ∈ cs, ∃ d ∈ ds, ∃ e ∈ es, ∃ g ∈ gs, x = f a b c d e g := by
  intro as
  induction as with
  | nil => intro bs cs ds es gs x h; rw [zipWith6_nil_first] at h; simp at h
  | cons a as ih =>
    intro bs cs ds es gs x h
    cases bs with
    | nil => rw [zipWith6_nil_of_nil (Or.inl rfl)] at h; simp at h
    | cons b bs =>
      cases cs with
      | nil => rw [zipWith6_nil_of_nil (Or.inr (Or.inl rfl))] at h; simp at h
      | cons c cs =>
        cases ds with
        | nil => rw [zipWith6_nil_of_nil (Or.inr (Or.inr (Or.inl rfl)))] at h; simp at h
        | cons d ds =>
          cases es with
          | nil =>
            rw [zipWith6_nil_of_nil (Or.inr (Or.inr (Or.inr (Or.inl rfl))))] at h; simp at h
          | cons e es =>
            cases gs with
            | nil =>
              rw [zipWith6_nil_of_nil (Or.inr (Or.inr (Or.inr (Or.inr rfl))))] at h; simp at h
            | cons g gs =>
              rw [zipWith6] at h
              rcases List.mem_cons.mp h with rfl | hm
              · exact ⟨a, List.mem_cons_self _ _, b, List.mem_cons_self _ _,
                  c, List.mem_cons_self _ _, d, List.mem_cons_self _ _,
                  e, List.mem_cons_self _ _, g, List.mem_cons_self _ _, rfl⟩
              · obtain ⟨a2, ha, b2, hb, c2, hc, d2, hd, e2, he, g2, hg, rfl⟩ := ih hm
                exact ⟨a2, List.mem_cons_of_mem _ ha, b2, List.mem_cons_of_mem _ hb,
                  c2, List.mem_cons_of_mem _ hc, d2, List.mem_cons_of_mem _ hd,
                  e2, List.mem_cons_of_mem _ he, g2, List.mem_cons_of_mem _ hg, rfl⟩

theorem zipWith6_length {α β γ δ ε ζ η : Type} {f : α → β → γ → δ → ε → ζ → η} :
    ∀ {n : ℕ} {as : List α} {bs : List β} {cs : List γ} {ds : List δ} {es : List ε} {gs : List ζ},
      as.length = n → bs.length = n → cs.length = n → ds.length = n → es.length = n →
      gs.length = n → (zipWith6 f as bs cs ds es gs).length = n := by
  intro n
  induction n with
  | zero =>
    intro as bs cs ds es gs ha hb hc hd he hg
    rw [List.length_eq_zero] at ha hb hc hd he hg
    subst ha; subst hb; subst hc; subst hd; subst he; subst hg; rfl
  | succ k ih =>
    intro as bs cs ds es gs ha hb hc hd he hg
    cases as with
    | nil => simp at ha
    | cons a as =>
      cases bs with
      | nil => simp at hb
      | cons b bs =>
        cases cs with
        | nil => simp at hc
        | cons c cs =>
          cases ds with
          | nil => simp at hd
          | cons d ds =>
            cases es with
            | nil => simp at he
            | cons e es =>
              cases gs with
              | nil => simp at hg
              | cons g gs =>
                simp only [List.length_cons, Nat.succ.injEq] at ha hb hc hd he hg
                rw [zipWith6, List.length_cons, ih ha hb hc hd he hg]

theorem normaliseSeries_length (vals : List (Option ℚ)) :
    (normaliseSeries vals).length = vals.length := by
  unfold normaliseSeries
  split
  · split_ifs <;> simp
  · simp

theorem normaliseSeries_eq_zeros {vals : List (Option ℚ)}
    (h : seriesMin vals = none ∨ seriesMax vals = none) :
    normaliseSeries vals = List.replicate vals.length (some 0) := by
  unfold normaliseSeries
  split
  · rename_i mn mx hmn hmx
    rcases h with h | h
    · rw [h] at hmn; exact absurd hmn (by simp)
    · rw [h] at hmx; exact absurd hmx (by simp)
  · rfl

theorem normaliseSeries_eq_close {vals : List (Option ℚ)} {mn mx : ℚ}
    (h1 : seriesMin vals = some mn) (h2 : seriesMax vals = some mx)
    (hc : |mx - mn| ≤ 1 / 100000000 + (1 / 100000) * |mn|) :
    normaliseSeries vals = List.replicate vals.length (some 0) := by
  unfold normaliseSeries
  split
  · rename_i mn2 mx2 hmn hmx
    rw [h1] at hmn
    rw [h2] at hmx
    cases hmn
    cases hmx
    rw [if_pos hc]
  · rfl

theorem normaliseSeries_eq_map {vals : List (Option ℚ)} {mn mx : ℚ}
    (h1 : seriesMin vals = some mn) (h2 : seriesMax vals = some mx)
    (hc : ¬ (|mx - mn| ≤ 1 / 100000000 + (1 / 100000) * |mn|)) :
    normaliseSeries vals = vals.map (Option.map fun x => (x - mn) / (mx - mn)) := by
  unfold normaliseSeries
  split
  · rename_i mn2 mx2 hmn hmx
    rw [h1] at hmn
    rw [h2] at hmx
    cases hmn
    cases hmx
    rw [if_neg hc]
  · rename_i hnone
    exact (hnone mn mx h1 h2).elim

theorem normaliseSeries_allSome {vals : List (Option ℚ)} (h : ∀ x ∈ vals, x.isSome) :
    ∀ y ∈ normaliseSeries vals, y.isSome := by
  intro y hy
  cases hmn : seriesMin vals with
  | none =>
    rw [normaliseSeries_eq_zeros (Or.inl hmn)] at hy
    rw [List.eq_of_mem_replicate hy]; rfl
  | some mn =>
    cases hmx : seriesMax vals with
    | none =>
      rw [normaliseSeries_eq_zeros (Or.inr hmx)] at hy
      rw [List.eq_of_mem_replicate hy]; rfl
    | some mx =>
      by_cases hc : |mx - mn| ≤ 1 / 100000000 + (1 / 100000) * |mn|
      · rw [normaliseSeries_eq_close hmn hmx hc] at hy
        rw [List.eq_of_mem_replicate hy]; rfl
      · rw [normaliseSeries_eq_map hmn hmx hc] at hy
        obtain ⟨x, hx, rfl⟩ := List.mem_map.mp hy
        have := h x hx
        cases x with
        | none => simp at this
        | some q => rfl

theorem normaliseSeries_of_allNone {vals : List (Option ℚ)} (h : ∀ x ∈ vals, x = none) :
    normaliseSeries vals = List.replicate vals.length (some 0) := by
  have hfm : vals.filterMap id = [] :=
    List.filterMap_eq_nil_iff.mpr (by intro a ha; rw [h a ha]; rfl)
  refine normaliseSeries_eq_zeros (Or.inl ?_)
  unfold seriesMin
  rw [hfm]
  rfl

theorem seriesMin_le_seriesMax {vals : List (Option ℚ)} {mn mx : ℚ}
    (h1 : seriesMin vals = some mn) (h2 : seriesMax vals = some mx) : mn ≤ mx := by
  obtain ⟨hmem, _⟩ := listMin_spec h1
  obtain ⟨_, hub⟩ := listMax_spec h2
  exact hub mn hmem

theorem mem_lapTimeFilter {laps : List LapRow} {r : LapRow} :
    r ∈ lapTimeFilter laps ↔ r ∈ laps ∧ ∃ t, r.lapTime = some t ∧ 0 < t := by
  unfold lapTimeFilter
  rw [List.mem_filter]
  constructor
  · rintro ⟨h1, h2⟩
    refine ⟨h1, ?_⟩
    cases hr : r.lapTime with
    | none => rw [hr] at h2; simp at h2
    | some t =>
      rw [hr] at h2
      simp only [decide_eq_true_eq] at h2
      exact ⟨t, rfl, h2⟩
  · rintro ⟨h1, t, ht, hpos⟩
    refine ⟨h1, ?_⟩
    rw [ht]
    simpa using hpos

theorem aggrBaseRows_mem {laps : List LapRow} {b : AggrBase} (h : b ∈ aggrBaseRows laps) :
    ∃ lr ∈ lapTimeFilter laps, b.driver = lr.driver ∧ b.lapNumber = lr.lapNumber := by
  unfold aggrBaseRows at h
  simp only [List.mem_map] at h
  obtain ⟨lr, hlr, rfl⟩ := h
  exact ⟨lr, hlr, rfl, rfl⟩

theorem aggrBaseRows_mem_of {laps : List LapRow} {lr : LapRow} (h : lr ∈ lapTimeFilter laps) :
    ∃ b ∈ aggrBaseRows laps, b.driver = lr.driver ∧ b.lapNumber = lr.lapNumber := by
  unfold aggrBaseRows
  exact ⟨_, List.mem_map_of_mem _ h, rfl, rfl⟩

theorem aggressivenessFactorRows_mem {expFn : ℚ → ℚ} {laps : List LapRow} {tele : List TeleRow}
    {fr : AggrFactors} (h : fr ∈ aggressivenessFactorRows expFn laps tele) :
    ∃ b ∈ aggrBaseRows laps, fr.driver = b.driver ∧ fr.lapNumber = b.lapNumber := by
  unfold aggressivenessFactorRows at h
  simp only [List.mem_map] at h
  obtain ⟨b, hb, rfl⟩ := h
  exact ⟨b, hb, rfl, rfl⟩

theorem aggressivenessFactorRows_mem_of {expFn : ℚ → ℚ} {laps : List LapRow}
    {tele : List TeleRow} {b : AggrBase} (hb : b ∈ aggrBaseRows laps) :
    ∃ fr ∈ aggressivenessFactorRows expFn laps tele,
      fr.driver = b.driver ∧ fr.lapNumber = b.lapNumber := by
  unfold aggressivenessFactorRows
  exact ⟨_, List.mem_map_of_mem _ hb, rfl, rfl⟩

theorem calculateAggressiveness_prov {expFn : ℚ → ℚ} {laps : List LapRow} {tele : List TeleRow}
    {r : ScoreRow} (h : r ∈ calculateAggressiveness expFn laps tele) :
    ∃ lr ∈ laps, lr.driver = r.driver ∧ lr.lapNumber = r.lapNumber ∧
      ∃ t, lr.lapTime = some t ∧ 0 < t := by
  unfold calculateAggressiveness at h
  simp only [sortScoreRows, List.mem_insertionSort] at h
  obtain ⟨a, ha, s, _, rfl⟩ := mem_zipWith_pair h
  obtain ⟨b, hb, hbd, hbl⟩ := aggressivenessFactorRows_mem ha
  obtain ⟨lr, hlr, hld, hll⟩ := aggrBaseRows_mem hb
  obtain ⟨hmem, t, ht, htp⟩ := mem_lapTimeFilter.mp hlr
  exact ⟨lr, hmem, by rw [← hld, ← hbd], by rw [← hll, ← hbl], t, ht, htp⟩

theorem calculateAggressiveness_isSome {expFn : ℚ → ℚ} {laps : List LapRow}
    {tele : List TeleRow} : ∀ r ∈ calculateAggressiveness expFn laps tele, r.score.isSome := by
  intro r h
  unfold calculateAggressiveness at h
  simp only [sortScoreRows, List.mem_insertionSort] at h
  obtain ⟨a, _, s, hs, rfl⟩ := mem_zipWith_pair h
  obtain ⟨y, hy, rfl⟩ := List.mem_map.mp hs
  have hys : y.isSome := by
    refine normaliseSeries_allSome ?_ y hy
    intro x hx
    obtain ⟨q, _, rfl⟩ := List.mem_map.mp hx
    rfl
  cases y with
  | none => simp at hys
  | some q => rfl

theorem calculateAggressiveness_complete {expFn : ℚ → ℚ} {laps : List LapRow}
    {tele : List TeleRow} {lr : LapRow} (hlr : lr ∈ laps) {t : ℚ} (ht : lr.lapTime = some t)
    (htpos : 0 < t) :
    ∃ r ∈ calculateAggressiveness expFn laps tele,
      r.driver = lr.driver ∧ r.lapNumber = lr.lapNumber := by
  have hf : lr ∈ lapTimeFilter laps := mem_lapTimeFilter.mpr ⟨hlr, t, ht, htpos⟩
  obtain ⟨b, hb, hbd, hbl⟩ := aggrBaseRows_mem_of hf
  obtain ⟨fr, hfr, hfd, hfl⟩ :=
    @aggressivenessFactorRows_mem_of expFn _ tele _ hb
  have hlen :
      (aggressivenessFactorRows expFn laps tele).length =
        ((normaliseSeries (((aggressivenessFactorRows expFn laps tele).map
          (·.rawScore)).map some)).map (Option.map (qclip 0 1))).length := by
    rw [List.length_map, normaliseSeries_length, List.length_map, List.length_map]
  obtain ⟨s, _, hmem⟩ := @zipWith_mem_of_mem_left _ _ _
    (fun (x : AggrFactors) s => (⟨x.driver, x.lapNumber, s⟩ : ScoreRow)) _ _ _ hlen hfr
  refine ⟨⟨fr.driver, fr.lapNumber, s⟩, ?_, by rw [hfd, hbd], by rw [hfl, hbl]⟩
  unfold calculateAggressiveness
  simp only [sortScoreRows, List.mem_insertionSort]
  exact hmem

theorem mem_sortLapRows {l : List LapRow} {r : LapRow} : r ∈ sortLapRows l ↔ r ∈ l :=
  List.mem_insertionSort _

theorem groupTransformQ_length {α : Type} (keyOf : α → String) (valOf : α → ℚ)
    (f : List ℚ → List ℚ) (rows : List α) :
    (groupTransformQ keyOf valOf f rows).length = rows.length := by
  unfold groupTransformQ
  rw [List.length_map, List.length_range]

theorem zip_mem_of_mem_left {α β : Type} :
    ∀ {as : List α} {bs : List β} {a : α}, as.length = bs.length → a ∈ as →
      ∃ b ∈ bs, (a, b) ∈ as.zip bs := by
  intro as
  induction as with
  | nil => intro bs a _ h; simp at h
  | cons x xs ih =>
    intro bs a hlen ha
    cases bs with
    | nil => simp at hlen
    | cons y ys =>
      simp only [List.length_cons, Nat.succ.injEq] at hlen
      rcases List.mem_cons.mp ha with rfl | hxs
      · exact ⟨y, List.mem_cons_self _ _, List.mem_cons_self _ _⟩
      · obtain ⟨b, hb, hmem⟩ := ih hlen hxs
        exact ⟨b, List.mem_cons_of_mem _ hb, List.mem_cons_of_mem _ hmem⟩

theorem confidenceFactorRows_mem {sqrtFn : ℚ → ℚ} {laps : List LapRow} {tele : List TeleRow}
    {fr : ConfFactors} (h : fr ∈ confidenceFactorRows sqrtFn laps tele) :
    ∃ lr ∈ lapTimeFilter laps, fr.driver = lr.driver ∧ fr.lapNumber = lr.lapNumber := by
  unfold confidenceFactorRows at h
  simp only [List.mem_map] at h
  obtain ⟨p, hp, rfl⟩ := h
  obtain ⟨a, v⟩ := p
  have h1 := (List.of_mem_zip hp).1
  exact ⟨a, mem_sortLapRows.mp h1, rfl, rfl⟩

theorem confidenceFactorRows_mem_of {sqrtFn : ℚ → ℚ} {laps : List LapRow} {tele : List TeleRow}
    {lr : LapRow} (h : lr ∈ lapTimeFilter laps) :
    ∃ fr ∈ confidenceFactorRows sqrtFn laps tele,
      fr.driver = lr.driver ∧ fr.lapNumber = lr.lapNumber := by
  have hs : lr ∈ sortLapRows (lapTimeFilter laps) := mem_sortLapRows.mpr h
  have hlen : (sortLapRows (lapTimeFilter laps)).length =
      (groupTransformQ (·.driver) (fun r => r.lapTime.getD 0)
        (rollingVariability sqrtFn) (sortLapRows (lapTimeFilter laps))).length := by
    rw [groupTransformQ_length]
  obtain ⟨v, _, hmem⟩ := zip_mem_of_mem_left hlen hs
  unfold confidenceFactorRows
  exact ⟨_, List.mem_map_of_mem _ hmem, rfl, rfl⟩

theorem calculateConfidence_prov {sqrtFn : ℚ → ℚ} {laps : List LapRow} {tele : List TeleRow}
    {r : ScoreRow} (h : r ∈ calculateConfidence sqrtFn laps tele) :
    ∃ lr ∈ laps, lr.driver = r.driver ∧ lr.lapNumber = r.lapNumber ∧
      ∃ t, lr.lapTime = some t ∧ 0 < t := by
  unfold calculateConfidence at h
  simp only [sortScoreRows, List.mem_insertionSort] at h
  obtain ⟨a, ha, s, _, rfl⟩ := mem_zipWith_pair h
  obtain ⟨lr, hlr, hld, hll⟩ := confidenceFactorRows_mem ha
  obtain ⟨hmem, t, ht, htp⟩ := mem_lapTimeFilter.mp hlr
  exact ⟨lr, hmem, by rw [← hld], by rw [← hll], t, ht, htp⟩

theorem calculateConfidence_isSome {sqrtFn : ℚ → ℚ} {laps : List LapRow}
    {tele : List TeleRow} : ∀ r ∈ calculateConfidence sqrtFn laps tele, r.score.isSome := by
  intro r h
  unfold calculateConfidence at h
  simp only [sortScoreRows, List.mem_insertionSort] at h
  obtain ⟨a, _, s, hs, rfl⟩ := mem_zipWith_pair h
  obtain ⟨y, hy, rfl⟩ := List.mem_map.mp hs
  have hys : y.isSome := by
    refine normaliseSeries_allSome ?_ y hy
    intro x hx
    obtain ⟨q, _, rfl⟩ := List.mem_map.mp hx
    rfl
  cases y with
  | none => simp at hys
  | some q => rfl

theorem calculateConfidence_complete {sqrtFn : ℚ → ℚ} {laps : List LapRow}
    {tele : List TeleRow} {lr : LapRow} (hlr : lr ∈ laps) {t : ℚ} (ht : lr.lapTime = some t)
    (htpos : 0 < t) :
    ∃ r ∈ calculateConfidence sqrtFn laps tele,
      r.driver = lr.driver ∧ r.lapNumber = lr.lapNumber := by
  have hf : lr ∈ lapTimeFilter laps := mem_lapTimeFilter.mpr ⟨hlr, t, ht, htpos⟩
  obtain ⟨fr, hfr, hfd, hfl⟩ :=
    @confidenceFactorRows_mem_of sqrtFn _ tele _ hf
  have hlen :
      (confidenceFactorRows sqrtFn laps tele).length =
        ((normaliseSeries (((confidenceFactorRows sqrtFn laps tele).map
          (·.rawScore)).map some)).map (Option.map (qclip 0 1))).length := by
    rw [List.length_map, normaliseSeries_length, List.length_map, List.length_map]
  obtain ⟨s, _, hmem⟩ := @zipWith_mem_of_mem_left _ _ _
    (fun (x : ConfFactors) s => (⟨x.driver, x.lapNumber, s⟩ : ScoreRow)) _ _ _ hlen hfr
  refine ⟨⟨fr.driver, fr.lapNumber, s⟩, ?_, by rw [hfd], by rw [hfl]⟩
  unfold calculateConfidence
  simp only [sortScoreRows, List.mem_insertionSort]
  exact hmem

theorem frustrationFactorRows_mem {laps : List LapRow} {rc : List RCEvent} {fr : FrusFactors}
    (h : fr ∈ frustrationFactorRows laps rc) :
    ∃ lr ∈ lapTimeFilter laps, fr.driver = lr.driver ∧ fr.lapNumber = lr.lapNumber := by
  unfold frustrationFactorRows at h
  simp only [List.mem_map, List.mem_range] at h
  obtain ⟨i, hi, rfl⟩ := h
  obtain ⟨r, hr⟩ : ∃ r, (sortLapRows (lapTimeFilter laps))[i]? = some r :=
    ⟨_, List.getElem?_eq_getElem hi⟩
  rw [hr]
  exact ⟨r, mem_sortLapRows.mp (List.getElem?_mem hr), rfl, rfl⟩

theorem frustrationFactorRows_mem_of {laps : List LapRow} {rc : List RCEvent} {lr : LapRow}
    (h : lr ∈ lapTimeFilter laps) :
    ∃ fr ∈ frustrationFactorRows laps rc, fr.driver = lr.driver ∧ fr.lapNumber = lr.lapNumber := by
  have hs : lr ∈ sortLapRows (lapTimeFilter laps) := mem_sortLapRows.mpr h
  obtain ⟨i, hi⟩ := List.get_of_mem hs
  have hget : (sortLapRows (lapTimeFilter laps))[(i : ℕ)]? = some lr := by
    rw [List.getElem?_eq_getElem i.isLt]
    rw [← hi]
    rfl
  unfold frustrationFactorRows
  refine ⟨_, List.mem_map_of_mem _ (List.mem_range.mpr i.isLt), ?_⟩
  rw [hget]
  exact ⟨rfl, rfl⟩

theorem calculateFrustration_prov {laps : List LapRow} {rc : List RCEvent}
    {r : ScoreRow} (h : r ∈ calculateFrustration laps rc) :
    ∃ lr ∈ laps, lr.driver = r.driver ∧ lr.lapNumber = r.lapNumber ∧
      ∃ t, lr.lapTime = some t ∧ 0 < t := by
  unfold calculateFrustration at h
  simp only [sortScoreRows, List.mem_insertionSort] at h
  obtain ⟨a, ha, s, _, rfl⟩ := mem_zipWith_pair h
  obtain ⟨lr, hlr, hld, hll⟩ := frustrationFactorRows_mem ha
  obtain ⟨hmem, t, ht, htp⟩ := mem_lapTimeFilter.mp hlr
  exact ⟨lr, hmem, by rw [← hld], by rw [← hll], t, ht, htp⟩

theorem calculateFrustration_isSome {laps : List LapRow} {rc : List RCEvent} :
    ∀ r ∈ calculateFrustration laps rc, r.score.isSome := by
  intro r h
  unfold calculateFrustration at h
  simp only [sortScoreRows, List.mem_insertionSort] at h
  obtain ⟨a, _, s, hs, rfl⟩ := mem_zipWith_pair h
  obtain ⟨y, hy, rfl⟩ := List.mem_map.mp hs
  have hys : y.isSome := by
    refine normaliseSeries_allSome ?_ y hy
    intro x hx
    obtain ⟨l1, hl1, p1, hp1, c1, hc1, r1, _, rfl⟩ := mem_zipWith4 hx
    have hl1s : l1.isSome := by
      refine normaliseSeries_allSome ?_ l1 hl1
      intro z hz
      obtain ⟨q, _, rfl⟩ := List.mem_map.mp hz
      rfl
    have hp1s : p1.isSome := by
      refine normaliseSeries_allSome ?_ p1 hp1
      intro z hz
      obtain ⟨q, _, rfl⟩ := List.mem_map.mp hz
      rfl
    have hc1s : c1.isSome := by
      refine normaliseSeries_allSome ?_ c1 hc1
      intro z hz
      obtain ⟨q, _, rfl⟩ := List.mem_map.mp hz
      rfl
    obtain ⟨lv, rfl⟩ := Option.isSome_iff_exists.mp hl1s
    obtain ⟨pv, rfl⟩ := Option.isSome_iff_exists.mp hp1s
    obtain ⟨cv, rfl⟩ := Option.isSome_iff_exists.mp hc1s
    rfl
  cases y with
  | none => simp at hys
  | some q => rfl

theorem calculateFrustration_complete {laps : List LapRow} {rc : List RCEvent} {lr : LapRow}
    (hlr : lr ∈ laps) {t : ℚ} (ht : lr.lapTime = some t) (htpos : 0 < t) :
    ∃ r ∈ calculateFrustration laps rc,
      r.driver = lr.driver ∧ r.lapNumber = lr.lapNumber := by
  have hf : lr ∈ lapTimeFilter laps := mem_lapTimeFilter.mpr ⟨hlr, t, ht, htpos⟩
  obtain ⟨fr, hfr, hfd, hfl⟩ := @frustrationFactorRows_mem_of _ rc _ hf
  have hrowlen : ∀ g : FrusFactors → ℚ,
      (normaliseSeries (((frustrationFactorRows laps rc).map g).map some)).length =
        (frustrationFactorRows laps rc).length := by
    intro g
    rw [normaliseSeries_length, List.length_map, List.length_map]
  have hraws : (zipWith4
      (fun l p c (r : FrusFactors) =>
        omap3 (fun a b cc => rawScoreFrustration a b cc r.pitStopFlag) l p c)
      (normaliseSeries (((frustrationFactorRows laps rc).map (·.relativeLoss)).map some))
      (normaliseSeries (((frustrationFactorRows laps rc).map (·.positionsLost)).map some))
      (normaliseSeries (((frustrationFactorRows laps rc).map (·.rcIntensity)).map some))
      (frustrationFactorRows laps rc)).length = (frustrationFactorRows laps rc).length :=
    zipWith4_length (hrowlen _) (hrowlen _) (hrowlen _) rfl
  have hlen : (frustrationFactorRows laps rc).length =
      ((normaliseSeries (zipWith4
        (fun l p c (r : FrusFactors) =>
          omap3 (fun a b cc => rawScoreFrustration a b cc r.pitStopFlag) l p c)
        (normaliseSeries (((frustrationFactorRows laps rc).map (·.relativeLoss)).map some))
        (normaliseSeries (((frustrationFactorRows laps rc).map (·.positionsLost)).map some))
        (normaliseSeries (((frustrationFactorRows laps rc).map (·.rcIntensity)).map some))
        (frustrationFactorRows laps rc))).map (Option.map (qclip 0 1))).length := by
    rw [List.length_map, normaliseSeries_length, hraws]
  obtain ⟨s, _, hmem⟩ := @zipWith_mem_of_mem_left _ _ _
    (fun (x : FrusFactors) s => (⟨x.driver, x.lapNumber, s⟩ : ScoreRow)) _ _ _ hlen hfr
  refine ⟨⟨fr.driver, fr.lapNumber, s⟩, ?_, by rw [hfd], by rw [hfl]⟩
  unfold calculateFrustration
  simp only [sortScoreRows, List.mem_insertionSort]
  exact hmem

theorem pressRowExpand_keys {agg : List PressTele} {behind : List BehindRow} {r : LapRow}
    {pb : PressBase} (h : pb ∈ pressRowExpand agg behind r) :
    pb.driver = r.driver ∧ pb.lapNumber = r.lapNumber := by
  unfold pressRowExpand at h
  split at h
  · rw [List.mem_singleton] at h
    subst h
    exact ⟨rfl, rfl⟩
  · obtain ⟨b, _, rfl⟩ := List.mem_map.mp h
    exact ⟨rfl, rfl⟩

theorem pressRowExpand_ne_nil (agg : List PressTele) (behind : List BehindRow) (r : LapRow) :
    pressRowExpand agg behind r ≠ [] := by
  unfold pressRowExpand
  split
  · simp
  · rename_i heq
    intro hmap
    rw [List.map_eq_nil_iff] at hmap
    exact heq hmap

theorem pressMergedRows_mem {laps : List LapRow} {tele : List TeleRow} {pb : PressBase}
    (h : pb ∈ pressMergedRows laps tele) :
    ∃ lr ∈ lapTimeFilter laps, pb.driver = lr.driver ∧ pb.lapNumber = lr.lapNumber := by
  unfold pressMergedRows at h
  rw [List.mem_flatMap] at h
  obtain ⟨r, hr, hpb⟩ := h
  obtain ⟨h1, h2⟩ := pressRowExpand_keys hpb
  exact ⟨r, hr, h1, h2⟩

theorem pressMergedRows_mem_of {laps : List LapRow} {tele : List TeleRow} {lr : LapRow}
    (h : lr ∈ lapTimeFilter laps) :
    ∃ pb ∈ pressMergedRows laps tele, pb.driver = lr.driver ∧ pb.lapNumber = lr.lapNumber := by
  obtain ⟨pb, hpb⟩ := List.exists_mem_of_ne_nil _
    (pressRowExpand_ne_nil (pressTeleAgg tele)
      (distanceToDriverBehind
        ((lapTimeFilter laps).map fun r => (r.lapNumber, r.driver, r.position))
        (pressTeleAgg tele)) lr)
  obtain ⟨h1, h2⟩ := pressRowExpand_keys hpb
  refine ⟨pb, ?_, h1, h2⟩
  unfold pressMergedRows
  rw [List.mem_flatMap]
  exact ⟨lr, h, hpb⟩

theorem pressureFactorRows_mem {laps : List LapRow} {tele : List TeleRow} {fr : PressFactors}
    (h : fr ∈ pressureFactorRows laps tele) :
    ∃ lr ∈ lapTimeFilter laps, fr.driver = lr.driver ∧ fr.lapNumber = lr.lapNumber := by
  unfold pressureFactorRows at h
  simp only [List.mem_map] at h
  obtain ⟨pb, hpb, rfl⟩ := h
  obtain ⟨lr, hlr, h1, h2⟩ := pressMergedRows_mem hpb
  exact ⟨lr, hlr, h1, h2⟩

theorem pressureFactorRows_mem_of {laps : List LapRow} {tele : List TeleRow} {lr : LapRow}
    (h : lr ∈ lapTimeFilter laps) :
    ∃ fr ∈ pressureFactorRows laps tele, fr.driver = lr.driver ∧ fr.lapNumber = lr.lapNumber := by
  obtain ⟨pb, hpb, h1, h2⟩ := @pressMergedRows_mem_of _ tele _ h
  unfold pressureFactorRows
  exact ⟨_, List.mem_map_of_mem _ hpb, h1, h2⟩

theorem calculatePressure_prov {laps : List LapRow} {tele : List TeleRow}
    {r : ScoreRow} (h : r ∈ calculatePressure laps tele) :
    ∃ lr ∈ laps, lr.driver = r.driver ∧ lr.lapNumber = r.lapNumber ∧
      ∃ t, lr.lapTime = some t ∧ 0 < t := by
  unfold calculatePressure at h
  simp only [sortScoreRows, List.mem_insertionSort] at h
  obtain ⟨a, ha, s, _, rfl⟩ := mem_zipWith_pair h
  obtain ⟨lr, hlr, hld, hll⟩ := pressureFactorRows_mem ha
  obtain ⟨hmem, t, ht, htp⟩ := mem_lapTimeFilter.mp hlr
  exact ⟨lr, hmem, by rw [← hld], by rw [← hll], t, ht, htp⟩

theorem calculatePressure_isSome {laps : List LapRow} {tele : List TeleRow} :
    ∀ r ∈ calculatePressure laps tele, r.score.isSome := by
  intro r h
  unfold calculatePressure at h
  simp only [sortScoreRows, List.mem_insertionSort] at h
  obtain ⟨a, _, s, hs, rfl⟩ := mem_zipWith_pair h
  obtain ⟨y, hy, rfl⟩ := List.mem_map.mp hs
  have hys : y.isSome := by
    refine normaliseSeries_allSome ?_ y hy
    intro x hx
    obtain ⟨a1, h1, a2, h2, a3, h3, a4, h4, a5, h5, a6, h6, rfl⟩ := mem_zipWith6 hx
    have hsome : ∀ (g : PressFactors → ℚ) (z : Option ℚ),
        z ∈ normaliseSeries (((pressureFactorRows laps tele).map g).map some) → z.isSome := by
      intro g z hz
      refine normaliseSeries_allSome ?_ z hz
      intro w hw
      obtain ⟨q, _, rfl⟩ := List.mem_map.mp hw
      rfl
    obtain ⟨v1, rfl⟩ := Option.isSome_iff_exists.mp (hsome _ _ h1)
    obtain ⟨v2, rfl⟩ := Option.isSome_iff_exists.mp (hsome _ _ h2)
    obtain ⟨v3, rfl⟩ := Option.isSome_iff_exists.mp (hsome _ _ h3)
    obtain ⟨v4, rfl⟩ := Option.isSome_iff_exists.mp (hsome _ _ h4)
    obtain ⟨v5, rfl⟩ := Option.isSome_iff_exists.mp (hsome _ _ h5)
    obtain ⟨v6, rfl⟩ := Option.isSome_iff_exists.mp (hsome _ _ h6)
    rfl
  cases y with
  | none => simp at hys
  | some q => rfl

theorem calculatePressure_complete {laps : List LapRow} {tele : List TeleRow} {lr : LapRow}
    (hlr : lr ∈ laps) {t : ℚ} (ht : lr.lapTime = some t) (htpos : 0 < t) :
    ∃ r ∈ calculatePressure laps tele, r.driver = lr.driver ∧ r.lapNumber = lr.lapNumber := by
  have hf : lr ∈ lapTimeFilter laps := mem_lapTimeFilter.mpr ⟨hlr, t, ht, htpos⟩
  obtain ⟨fr, hfr, hfd, hfl⟩ := @pressureFactorRows_mem_of _ tele _ hf
  have hcomp : ∀ g : PressFactors → ℚ,
      (normaliseSeries (((pressureFactorRows laps tele).map g).map some)).length =
        (pressureFactorRows laps tele).length := by
    intro g
    rw [normaliseSeries_length, List.length_map, List.length_map]
  have hraws : (zipWith6 (omap6 rawScorePressure)
      (normaliseSeries (((pressureFactorRows laps tele).map (·.gapAheadComp)).map some))
      (normaliseSeries (((pressureFactorRows laps tele).map (·.gapBehindComp)).map some))
      (normaliseSeries (((pressureFactorRows laps tele).map (·.tyreWearComp)).map some))
      (normaliseSeries (((pressureFactorRows laps tele).map (·.lapPhaseComp)).map some))
      (normaliseSeries (((pressureFactorRows laps tele).map (·.positionComp)).map some))
      (normaliseSeries (((pressureFactorRows laps tele).map (·.brakeComp)).map some))).length =
      (pressureFactorRows laps tele).length :=
    zipWith6_length (hcomp _) (hcomp _) (hcomp _) (hcomp _) (hcomp _) (hcomp _)
  have hlen : (pressureFactorRows laps tele).length =
      ((normaliseSeries (zipWith6 (omap6 rawScorePressure)
        (normaliseSeries (((pressureFactorRows laps tele).map (·.gapAheadComp)).map some))
        (normaliseSeries (((pressureFactorRows laps tele).map (·.gapBehindComp)).map some))
        (normaliseSeries (((pressureFactorRows laps tele).map (·.tyreWearComp)).map some))
        (normaliseSeries (((pressureFactorRows laps tele).map (·.lapPhaseComp)).map some))
        (normaliseSeries (((pressureFactorRows laps tele).map (·.positionComp)).map some))
        (normaliseSeries (((pressureFactorRows laps tele).map (·.brakeComp)).map some)))).map
        (Option.map (qclip 0 1))).length := by
    rw [List.length_map, normaliseSeries_length, hraws]
  obtain ⟨s, _, hmem⟩ := @zipWith_mem_of_mem_left _ _ _
    (fun (x : PressFactors) s => (⟨x.driver, x.lapNumber, s⟩ : ScoreRow)) _ _ _ hlen hfr
  refine ⟨⟨fr.driver, fr.lapNumber, s⟩, ?_, by rw [hfd], by rw [hfl]⟩
  unfold calculatePressure
  simp only [sortScoreRows, List.mem_insertionSort]
  exact hmem

theorem ofill_isSome_right {a : Option ℚ} {m : ℚ} : (ofill a (some m)).isSome := by
  cases a <;> rfl

theorem ofill_none_right {a : Option ℚ} : ofill a none = a := by
  cases a <;> rfl

theorem riskFactorRows_mem {laps : List LapRow} {tele : List TeleRow} {fr : RiskBase}
    (h : fr ∈ riskFactorRows laps tele) :
    ∃ lr ∈ lapTimeFilter laps, fr.driver = lr.driver ∧ fr.lapNumber = lr.lapNumber := by
  unfold riskFactorRows at h
  simp only [List.mem_map, List.mem_range] at h
  obtain ⟨i, hi, rfl⟩ := h
  obtain ⟨r, hr⟩ : ∃ r, (sortLapRows (lapTimeFilter laps))[i]? = some r :=
    ⟨_, List.getElem?_eq_getElem hi⟩
  rw [hr]
  exact ⟨r, mem_sortLapRows.mp (List.getElem?_mem hr), rfl, rfl⟩

theorem riskFactorRows_mem_of {laps : List LapRow} {tele : List TeleRow} {lr : LapRow}
    (h : lr ∈ lapTimeFilter laps) :
    ∃ fr ∈ riskFactorRows laps tele, fr.driver = lr.driver ∧ fr.lapNumber = lr.lapNumber := by
  have hs : lr ∈ sortLapRows (lapTimeFilter laps) := mem_sortLapRows.mpr h
  obtain ⟨i, hi⟩ := List.get_of_mem hs
  have hget : (sortLapRows (lapTimeFilter laps))[(i : ℕ)]? = some lr := by
    rw [List.getElem?_eq_getElem i.isLt, ← hi]
    rfl
  unfold riskFactorRows
  refine ⟨_, List.mem_map_of_mem _ (List.mem_range.mpr i.isLt), ?_⟩
  rw [hget]
  exact ⟨rfl, rfl⟩

theorem riskFactorRows_speed_dichotomy (laps : List LapRow) (tele : List TeleRow) :
    (∀ y ∈ (riskFactorRows laps tele).map (·.maxSpeed), y.isSome) ∨
    (∀ y ∈ (riskFactorRows laps tele).map (·.maxSpeed), y = none) := by
  cases hmean : omean (riskSpeedCol laps tele) with
  | some m =>
    left
    intro y hy
    obtain ⟨fr, hfr, rfl⟩ := List.mem_map.mp hy
    unfold riskFactorRows at hfr
    simp only [List.mem_map, List.mem_range] at hfr
    obtain ⟨i, hi, rfl⟩ := hfr
    obtain ⟨r, hr⟩ : ∃ r, (sortLapRows (lapTimeFilter laps))[i]? = some r :=
      ⟨_, List.getElem?_eq_getElem hi⟩
    rw [hr]
    show (ofill ((findRiskTele (riskTeleAgg tele) r.driver r.lapNumber).bind (·.maxSpeed))
      (omean (riskSpeedCol laps tele))).isSome
    rw [hmean]
    exact ofill_isSome_right
  | none =>
    right
    intro y hy
    obtain ⟨fr, hfr, rfl⟩ := List.mem_map.mp hy
    unfold riskFactorRows at hfr
    simp only [List.mem_map, List.mem_range] at hfr
    obtain ⟨i, hi, rfl⟩ := hfr
    obtain ⟨r, hr⟩ : ∃ r, (sortLapRows (lapTimeFilter laps))[i]? = some r :=
      ⟨_, List.getElem?_eq_getElem hi⟩
    rw [hr]
    show ofill ((findRiskTele (riskTeleAgg tele) r.driver r.lapNumber).bind (·.maxSpeed))
      (omean (riskSpeedCol laps tele)) = none
    rw [hmean, ofill_none_right]
    refine omean_eq_none hmean _ ?_
    exact List.mem_map_of_mem _ (List.getElem?_mem hr)

theorem riskFactorRows_rpm_dichotomy (laps : List LapRow) (tele : List TeleRow) :
    (∀ y ∈ (riskFactorRows laps tele).map (·.avgRpm), y.isSome) ∨
    (∀ y ∈ (riskFactorRows laps tele).map (·.avgRpm), y = none) := by
  cases hmean : omean (riskRpmCol laps tele) with
  | some m =>
    left
    intro y hy
    obtain ⟨fr, hfr, rfl⟩ := List.mem_map.mp hy
    unfold riskFactorRows at hfr
    simp only [List.mem_map, List.mem_range] at hfr
    obtain ⟨i, hi, rfl⟩ := hfr
    obtain ⟨r, hr⟩ : ∃ r, (sortLapRows (lapTimeFilter laps))[i]? = some r :=
      ⟨_, List.getElem?_eq_getElem hi⟩
    rw [hr]
    show (ofill ((findRiskTele (riskTeleAgg tele) r.driver r.lapNumber).bind (·.avgRpm))
      (omean (riskRpmCol laps tele))).isSome
    rw [hmean]
    exact ofill_isSome_right
  | none =>
    right
    intro y hy
    obtain ⟨fr, hfr, rfl⟩ := List.mem_map.mp hy
    unfold riskFactorRows at hfr
    simp only [List.mem_map, List.mem_range] at hfr
    obtain ⟨i, hi, rfl⟩ := hfr
    obtain ⟨r, hr⟩ : ∃ r, (sortLapRows (lapTimeFilter laps))[i]? = some r :=
      ⟨_, List.getElem?_eq_getElem hi⟩
    rw [hr]
    show ofill ((findRiskTele (riskTeleAgg tele) r.driver r.lapNumber).bind (·.avgRpm))
      (omean (riskRpmCol laps tele)) = none
    rw [hmean, ofill_none_right]
    refine omean_eq_none hmean _ ?_
    exact List.mem_map_of_mem _ (List.getElem?_mem hr)

theorem normaliseSeries_allSome_of_dichotomy {vals : List (Option ℚ)}
    (h : (∀ y ∈ vals, y.isSome) ∨ (∀ y ∈ vals, y = none)) :
    ∀ y ∈ normaliseSeries vals, y.isSome := by
  rcases h with h | h
  · exact normaliseSeries_allSome h
  · intro y hy
    rw [normaliseSeries_of_allNone h] at hy
    rw [List.eq_of_mem_replicate hy]
    rfl

theorem calculateRiskTaking_prov {laps : List LapRow} {tele : List TeleRow}
    {r : ScoreRow} (h : r ∈ calculateRiskTaking laps tele) :
    ∃ lr ∈ laps, lr.driver = r.driver ∧ lr.lapNumber = r.lapNumber ∧
      ∃ t, lr.lapTime = some t ∧ 0 < t := by
  unfold calculateRiskTaking at h
  simp only [sortScoreRows, List.mem_insertionSort] at h
  obtain ⟨a, ha, s, _, rfl⟩ := mem_zipWith_pair h
  obtain ⟨lr, hlr, hld, hll⟩ := riskFactorRows_mem ha
  obtain ⟨hmem, t, ht, htp⟩ := mem_lapTimeFilter.mp hlr
  exact ⟨lr, hmem, by rw [← hld], by rw [← hll], t, ht, htp⟩

theorem calculateRiskTaking_isSome {laps : List LapRow} {tele : List TeleRow} :
    ∀ r ∈ calculateRiskTaking laps tele, r.score.isSome := by
  intro r h
  unfold calculateRiskTaking at h
  simp only [sortScoreRows, List.mem_insertionSort] at h
  obtain ⟨a, _, s, hs, rfl⟩ := mem_zipWith_pair h
  obtain ⟨y, hy, rfl⟩ := List.mem_map.mp hs
  have hys : y.isSome := by
    refine normaliseSeries_allSome ?_ y hy
    intro x hx
    obtain ⟨a1, h1, a2, h2, a3, h3, a4, h4, a5, h5, a6, h6, rfl⟩ := mem_zipWith6 hx
    have hsome : ∀ (g : RiskBase → ℚ) (z : Option ℚ),
        z ∈ normaliseSeries (((riskFactorRows laps tele).map g).map some) → z.isSome := by
      intro g z hz
      refine normaliseSeries_allSome ?_ z hz
      intro w hw
      obtain ⟨q, _, rfl⟩ := List.mem_map.mp hw
      rfl
    have h1s : a1.isSome :=
      normaliseSeries_allSome_of_dichotomy (riskFactorRows_speed_dichotomy laps tele) a1 h1
    have h2s : a2.isSome :=
      normaliseSeries_allSome_of_dichotomy (riskFactorRows_rpm_dichotomy laps tele) a2 h2
    obtain ⟨v1, rfl⟩ := Option.isSome_iff_exists.mp h1s
    obtain ⟨v2, rfl⟩ := Option.isSome_iff_exists.mp h2s
    obtain ⟨v3, rfl⟩ := Option.isSome_iff_exists.mp (hsome _ _ h3)
    obtain ⟨v4, rfl⟩ := Option.isSome_iff_exists.mp (hsome _ _ h4)
    obtain ⟨v5, rfl⟩ := Option.isSome_iff_exists.mp (hsome _ _ h5)
    obtain ⟨v6, rfl⟩ := Option.isSome_iff_exists.mp (hsome _ _ h6)
    rfl
  cases y with
  | none => simp at hys
  | some q => rfl

theorem calculateRiskTaking_complete {laps : List LapRow} {tele : List TeleRow} {lr : LapRow}
    (hlr : lr ∈ laps) {t : ℚ} (ht : lr.lapTime = some t) (htpos : 0 < t) :
    ∃ r ∈ calculateRiskTaking laps tele, r.driver = lr.driver ∧ r.lapNumber = lr.lapNumber := by
  have hf : lr ∈ lapTimeFilter laps := mem_lapTimeFilter.mpr ⟨hlr, t, ht, htpos⟩
  obtain ⟨fr, hfr, hfd, hfl⟩ := @riskFactorRows_mem_of _ tele _ hf
  have hcomp1 : (normaliseSeries ((riskFactorRows laps tele).map (·.maxSpeed))).length =
      (riskFactorRows laps tele).length := by
    rw [normaliseSeries_length, List.length_map]
  have hcomp2 : (normaliseSeries ((riskFactorRows laps tele).map (·.avgRpm))).length =
      (riskFactorRows laps tele).length := by
    rw [normaliseSeries_length, List.length_map]
  have hcomp : ∀ g : RiskBase → ℚ,
      (normaliseSeries (((riskFactorRows laps tele).map g).map some)).length =
        (riskFactorRows laps tele).length := by
    intro g
    rw [normaliseSeries_length, List.length_map, List.length_map]
  have hraws : (zipWith6 (omap6 rawScoreRisk)
      (normaliseSeries ((riskFactorRows laps tele).map (·.maxSpeed)))
      (normaliseSeries ((riskFactorRows laps tele).map (·.avgRpm)))
      (normaliseSeries (((riskFactorRows laps tele).map (·.drsShare)).map some))
      (normaliseSeries (((riskFactorRows laps tele).map fun r => 1 - r.brakeShare).map some))
      (normaliseSeries (((riskFactorRows laps tele).map (·.positionsGained)).map some))
      (normaliseSeries (((riskFactorRows laps tele).map (·.lapPhase)).map some))).length =
      (riskFactorRows laps tele).length :=
    zipWith6_length hcomp1 hcomp2 (hcomp _) (by rw [normaliseSeries_length, List.length_map,
      List.length_map]) (hcomp _) (hcomp _)
  have hlen : (riskFactorRows laps tele).length =
      ((normaliseSeries (zipWith6 (omap6 rawScoreRisk)
        (normaliseSeries ((riskFactorRows laps tele).map (·.maxSpeed)))
        (normaliseSeries ((riskFactorRows laps tele).map (·.avgRpm)))
        (normaliseSeries (((riskFactorRows laps tele).map (·.drsShare)).map some))
        (normaliseSeries (((riskFactorRows laps tele).map fun r => 1 - r.brakeShare).map some))
        (normaliseSeries (((riskFactorRows laps tele).map (·.positionsGained)).map some))
        (normaliseSeries (((riskFactorRows laps tele).map (·.lapPhase)).map some)))).map
        (Option.map (qclip 0 1))).length := by
    rw [List.length_map, normaliseSeries_length, hraws]
  obtain ⟨s, _, hmem⟩ := @zipWith_mem_of_mem_left _ _ _
    (fun (x : RiskBase) s => (⟨x.driver, x.lapNumber, s⟩ : ScoreRow)) _ _ _ hlen hfr
  refine ⟨⟨fr.driver, fr.lapNumber, s⟩, ?_, by rw [hfd], by rw [hfl]⟩
  unfold calculateRiskTaking
  simp only [sortScoreRows, List.mem_insertionSort]
  exact hmem

theorem mem_availableLaps {laps : List LapRow} {n : ℤ} :
    n ∈ availableLaps laps ↔ ∃ r ∈ laps, r.lapNumber = n := by
  unfold availableLaps
  rw [List.mem_insertionSort, List.mem_dedup, List.mem_map]

theorem availableLaps_sorted (laps : List LapRow) :
    List.Sorted (· ≤ ·) (availableLaps laps) :=
  List.sorted_insertionSort _ _

theorem availableLaps_nodup (laps : List LapRow) : (availableLaps laps).Nodup :=
  (List.perm_insertionSort _ _).nodup_iff.mpr (List.nodup_dedup _)

theorem mem_activeRows {laps : List LapRow} {n : ℤ} {r : LapRow} :
    r ∈ activeRows laps n ↔
      r ∈ laps ∧ r.lapNumber = n ∧ ∃ p, r.position = some p ∧ 0 < p := by
  unfold activeRows
  rw [List.mem_filter]
  constructor
  · rintro ⟨h1, h2⟩
    rw [Bool.and_eq_true] at h2
    obtain ⟨hb1, hb2⟩ := h2
    refine ⟨h1, by simpa using hb1, ?_⟩
    cases hp : r.position with
    | none => rw [hp] at hb2; simp at hb2
    | some p =>
      rw [hp] at hb2
      simp only [decide_eq_true_eq] at hb2
      exact ⟨p, rfl, hb2⟩
  · rintro ⟨h1, h2, p, hp, hpos⟩
    refine ⟨h1, ?_⟩
    rw [Bool.and_eq_true]
    refine ⟨by simpa using h2, ?_⟩
    rw [hp]
    simpa using hpos

theorem lapDriversInfo_length (laps : List LapRow) (scores : ScoreTables) (n : ℤ) :
    (lapDriversInfo laps scores n).length = (activeRows laps n).length := by
  unfold lapDriversInfo
  rw [List.length_map, (List.perm_insertionSort _ _).length_eq]

theorem lapData_key_active {laps : List LapRow} {scores : ScoreTables} {n : ℤ} {e : LapEntry}
    (h : (n, e) ∈ (buildLapDataset laps scores).1) :
    ∃ r ∈ laps, r.lapNumber = n ∧ ∃ p, r.position = some p ∧ 0 < p := by
  unfold buildLapDataset at h
  simp only [List.mem_filterMap] at h
  obtain ⟨m, _, hbody⟩ := h
  by_cases hact : (activeRows laps m).isEmpty = true
  · rw [if_pos hact] at hbody
    exact absurd hbody (by simp)
  · rw [if_neg hact] at hbody
    by_cases hinfo : (lapDriversInfo laps scores m).isEmpty = true
    · rw [if_pos hinfo] at hbody
      exact absurd hbody (by simp)
    · rw [if_neg hinfo] at hbody
      rw [Option.some.injEq, Prod.mk.injEq] at hbody
      obtain ⟨rfl, _⟩ := hbody
      have hne : activeRows laps m ≠ [] := by
        intro hnil
        rw [hnil] at hact
        exact hact rfl
      obtain ⟨r, hr⟩ := List.exists_mem_of_ne_nil _ hne
      obtain ⟨h1, h2, p, hp, hpos⟩ := mem_activeRows.mp hr
      exact ⟨r, h1, h2, p, hp, hpos⟩

theorem lapData_key_of_active {laps : List LapRow} {scores : ScoreTables} {n : ℤ}
    (h : ∃ r ∈ laps, r.lapNumber = n ∧ ∃ p, r.position = some p ∧ 0 < p) :
    ∃ e, (n, e) ∈ (buildLapDataset laps scores).1 := by
  obtain ⟨r, hr, hn, p, hp, hpos⟩ := h
  have havail : n ∈ availableLaps laps := mem_availableLaps.mpr ⟨r, hr, hn⟩
  have hactive : r ∈ activeRows laps n := mem_activeRows.mpr ⟨hr, hn, p, hp, hpos⟩
  have hact : ¬ (activeRows laps n).isEmpty = true := by
    rw [List.isEmpty_iff]
    intro hnil
    rw [hnil] at hactive
    exact absurd hactive (List.not_mem_nil r)
  have hinfo : ¬ (lapDriversInfo laps scores n).isEmpty = true := by
    rw [List.isEmpty_iff, ← List.length_eq_zero, lapDriversInfo_length]
    intro hzero
    rw [List.length_eq_zero] at hzero
    rw [hzero] at hactive
    exact absurd hactive (List.not_mem_nil r)
  refine ⟨⟨n, normalizeEmotionsForLap (lapDriversInfo laps scores n)⟩, ?_⟩
  unfold buildLapDataset
  simp only [List.mem_filterMap]
  refine ⟨n, havail, ?_⟩
  rw [if_neg hact, if_neg hinfo]

theorem normalizeEmotionValues_length (vals : List (Option ℚ)) :
    (normalizeEmotionValues vals).length = vals.length := by
  unfold normalizeEmotionValues
  rw [List.length_map]

theorem normalizeEmotionsForLap_aggr (drivers : List DriverInfo) :
    ((normalizeEmotionsForLap drivers).map fun d => d.emotions.aggressiveness) =
      normalizeEmotionValues (drivers.map fun d => d.emotions.aggressiveness) := by
  apply List.ext_getElem
  · rw [List.length_map]
    unfold normalizeEmotionsForLap
    rw [List.length_map, List.length_range, normalizeEmotionValues_length, List.length_map]
  · intro i h1 h2
    rw [List.getElem_map]
    unfold normalizeEmotionsForLap
    simp only [List.getElem_map, List.getElem_range]
    have hlt : i < drivers.length := by
      rw [normalizeEmotionValues_length, List.length_map] at h2
      exact h2
    rw [List.getElem?_eq_getElem hlt]
    show (normalizeEmotionValues (drivers.map fun d => d.emotions.aggressiveness)).getD i 0 = _
    rw [List.getD_eq_getElem?_getD, List.getElem?_eq_getElem h2]
    rfl

theorem normalizeEmotionsForLap_conf (drivers : List DriverInfo) :
    ((normalizeEmotionsForLap drivers).map fun d => d.emotions.confidence) =
      normalizeEmotionValues (drivers.map fun d => d.emotions.confidence) := by
  apply List.ext_getElem
  · rw [List.length_map]
    unfold normalizeEmotionsForLap
    rw [List.length_map, List.length_range, normalizeEmotionValues_length, List.length_map]
  · intro i h1 h2
    rw [List.getElem_map]
    unfold normalizeEmotionsForLap
    simp only [List.getElem_map, List.getElem_range]
    have hlt : i < drivers.length := by
      rw [normalizeEmotionValues_length, List.length_map] at h2
      exact h2
    rw [List.getElem?_eq_getElem hlt]
    show (normalizeEmotionValues (drivers.map fun d => d.emotions.confidence)).getD i 0 = _
    rw [List.getD_eq_getElem?_getD, List.getElem?_eq_getElem h2]
    rfl

theorem normalizeEmotionsForLap_frus (drivers : List DriverInfo) :
    ((normalizeEmotionsForLap drivers).map fun d => d.emotions.frustration) =
      normalizeEmotionValues (drivers.map fun d => d.emotions.frustration) := by
  apply List.ext_getElem
  · rw [List.length_map]
    unfold normalizeEmotionsForLap
    rw [List.length_map, List.length_range, normalizeEmotionValues_length, List.length_map]
  · intro i h1 h2
    rw [List.getElem_map]
    unfold normalizeEmotionsForLap
    simp only [List.getElem_map, List.getElem_range]
    have hlt : i < drivers.length := by
      rw [normalizeEmotionValues_length, List.length_map] at h2
      exact h2
    rw [List.getElem?_eq_getElem hlt]
    show (normalizeEmotionValues (drivers.map fun d => d.emotions.frustration)).getD i 0 = _
    rw [List.getD_eq_getElem?_getD, List.getElem?_eq_getElem h2]
    rfl

theorem normalizeEmotionsForLap_pres (drivers : List DriverInfo) :
    ((normalizeEmotionsForLap drivers).map fun d => d.emotions.pressure) =
      normalizeEmotionValues (drivers.map fun d => d.emotions.pressure) := by
  apply List.ext_getElem
  · rw [List.length_map]
    unfold normalizeEmotionsForLap
    rw [List.length_map, List.length_range, normalizeEmotionValues_length, List.length_map]
  · intro i h1 h2
    rw [List.getElem_map]
    unfold normalizeEmotionsForLap
    simp only [List.getElem_map, List.getElem_range]
    have hlt : i < drivers.length := by
      rw [normalizeEmotionValues_length, List.length_map] at h2
      exact h2
    rw [List.getElem?_eq_getElem hlt]
    show (normalizeEmotionValues (drivers.map fun d => d.emotions.pressure)).getD i 0 = _
    rw [List.getD_eq_getElem?_getD, List.getElem?_eq_getElem h2]
    rfl

theorem normalizeEmotionsForLap_risk (drivers : List DriverInfo) :
    ((normalizeEmotionsForLap drivers).map fun d => d.emotions.riskTaking) =
      normalizeEmotionValues (drivers.map fun d => d.emotions.riskTaking) := by
  apply List.ext_getElem
  · rw [List.length_map]
    unfold normalizeEmotionsForLap
    rw [List.length_map, List.length_range, normalizeEmotionValues_length, List.length_map]
  · intro i h1 h2
    rw [List.getElem_map]
    unfold normalizeEmotionsForLap
    simp only [List.getElem_map, List.getElem_range]
    have hlt : i < drivers.length := by
      rw [normalizeEmotionValues_length, List.length_map] at h2
      exact h2
    rw [List.getElem?_eq_getElem hlt]
    show (normalizeEmotionValues (drivers.map fun d => d.emotions.riskTaking)).getD i 0 = _
    rw [List.getD_eq_getElem?_getD, List.getElem?_eq_getElem h2]
    rfl

/-- C2 (counterexample): the seven fixed aggressiveness weights
0.25, 0.15, 0.20, 0.20, 0.15, 0.05, 0.15 do not sum to 1.0 — the raw-score
combination applied to all-ones inputs yields 1.15, so `rawScoreAggr` is not
a convex combination as the claim states. -/
theorem claim2_counterexample :
    rawScoreAggr 1 1 1 1 1 1 1 = 23 / 20 ∧ ((23 : ℚ) / 20 = 1 → False) := by
  constructor
  · norm_num [rawScoreAggr]
  · norm_num

/-- C2 (amended): of the five scoring transforms, the confidence,
frustration, pressure and risk-taking raw-score weight vectors each sum to
1.0 exactly (the value of the combination on all-ones inputs), but the
aggressiveness weights sum to 1.15. -/
theorem claim2_amended :
    rawScoreConfidence 1 1 1 1 1 = 1 ∧ rawScoreFrustration 1 1 1 1 = 1 ∧
    rawScorePressure 1 1 1 1 1 1 = 1 ∧ rawScoreRisk 1 1 1 1 1 1 = 1 ∧
    rawScoreAggr 1 1 1 1 1 1 1 = 23 / 20 := by
  refine ⟨?_, ?_, ?_, ?_, ?_⟩ <;>
    norm_num [rawScoreConfidence, rawScoreFrustration, rawScorePressure, rawScoreRisk,
      rawScoreAggr]

/-- C9: the pipeline is deterministic — it is a pure function of the three
input tables (and of the two transcendental primitives), so two runs on equal
inputs produce the same payload and the same serialized document,
byte for byte. -/
theorem claim9_theorem (expFn sqrtFn : ℚ → ℚ) (laps1 laps2 : List LapRow)
    (tele1 tele2 : List TeleRow) (rc1 rc2 : List RCEvent)
    (hl : laps1 = laps2) (ht : tele1 = tele2) (hr : rc1 = rc2) :
    runPipeline expFn sqrtFn laps1 tele1 rc1 = runPipeline expFn sqrtFn laps2 tele2 rc2 ∧
    serializePayload (runPipeline expFn sqrtFn laps1 tele1 rc1) =
      serializePayload (runPipeline expFn sqrtFn laps2 tele2 rc2) := by
  subst hl
  subst ht
  subst hr
  exact ⟨rfl, rfl⟩

/-- C9 (witness): two runs on the identical concrete session serialize
identically. -/
theorem claim9_witness :
    serializePayload (runPipeline id id twoDriverLaps verOnlyTele rcExample) =
      serializePayload (runPipeline id id twoDriverLaps verOnlyTele rcExample) :=
  (claim9_theorem id id twoDriverLaps twoDriverLaps verOnlyTele verOnlyTele rcExample
    rcExample rfl rfl rfl).2

/-- C10: in `calculate_frustration` every race-control event with a missing
lap number is coerced to the lap-0 bucket; for every lap number the assigned
`race_control_intensity` equals that lap's event count divided by the maximum
bucket count (taken over all buckets, the lap-0 bucket included, so missing-lap
events can lower real laps' intensities); a lap with no events gets 0; and the
frustration rows carry exactly this intensity for their own lap number. -/
theorem claim10_theorem (rc : List RCEvent) (n : ℤ) :
    (∀ e ∈ rc, e.lap = none → rcBucket e = 0) ∧
    raceControlIntensity rc n = ((countEventsAt rc n : ℕ) : ℚ) / maxEvents rc ∧
    (countEventsAt rc n = 0 → raceControlIntensity rc n = 0) ∧
    (∀ laps : List LapRow, ∀ fr ∈ frustrationFactorRows laps rc,
      fr.rcIntensity = raceControlIntensity rc fr.lapNumber) := by
  have hform : raceControlIntensity rc n = ((countEventsAt rc n : ℕ) : ℚ) / maxEvents rc := by
    unfold raceControlIntensity
    split_ifs with hmem
    · rfl
    · have hcount : countEventsAt rc n = 0 := by
        unfold countEventsAt
        rw [List.countP_eq_zero]
        intro e he
        simp only [beq_iff_eq]
        intro heq
        refine hmem ?_
        unfold rcBuckets
        rw [List.mem_dedup]
        exact List.mem_map.mpr ⟨e, he, heq⟩
      rw [hcount]
      norm_num
  refine ⟨?_, hform, ?_, ?_⟩
  · intro e _ he
    unfold rcBucket
    rw [he]
    norm_num [pyInt]
  · intro hzero
    rw [hform, hzero]
    norm_num
  · intro laps fr hfr
    unfold frustrationFactorRows at hfr
    simp only [List.mem_map, List.mem_range] at hfr
    obtain ⟨i, hi, rfl⟩ := hfr
    obtain ⟨r, hr⟩ : ∃ r, (sortLapRows (lapTimeFilter laps))[i]? = some r :=
      ⟨_, List.getElem?_eq_getElem hi⟩
    rw [hr]

/-- C10 (witness): on three concrete events (one with a missing lap number,
two on lap 3) the missing-lap event lands in bucket 0 and lap 3's intensity
is its count over the maximum bucket count. -/
theorem claim10_witness :
    rcBucket { lap := none } = 0 ∧
    raceControlIntensity rcExample 3 =
      ((countEventsAt rcExample 3 : ℕ) : ℚ) / maxEvents rcExample := by
  have h := claim10_theorem rcExample 3
  exact ⟨h.1 { lap := none } (by simp [rcExample]) rfl, h.2.1⟩

/-- C7: `normalise_series` returns a same-length sequence; an empty input
yields an empty result; an input with only missing values, or whose defined
values are all identical (min and max numerically indistinguishable under
`np.isclose`), yields all zeros; otherwise every defined entry is mapped
linearly into `[0, 1]` with the minimum sent to 0.0 and the maximum to 1.0
(missing entries propagate as the missing sentinel); being a total function,
it never raises. -/
theorem claim7_theorem (vals : List (Option ℚ)) :
    (normaliseSeries vals).length = vals.length ∧
    (vals = [] → normaliseSeries vals = []) ∧
    ((∀ v ∈ vals, v = none) → normaliseSeries vals = List.replicate vals.length (some 0)) ∧
    ((∀ x ∈ vals.filterMap id, ∀ y ∈ vals.filterMap id, x = y) →
      normaliseSeries vals = List.replicate vals.length (some 0)) ∧
    (∀ mn mx, seriesMin vals = some mn → seriesMax vals = some mx →
      ¬ |mx - mn| ≤ 1 / 100000000 + (1 / 100000) * |mn| →
      (∀ (i : ℕ) (x : ℚ), vals[i]? = some (some x) →
        ∃ y, (normaliseSeries vals)[i]? = some (some y) ∧ 0 ≤ y ∧ y ≤ 1) ∧
      (∀ i : ℕ, vals[i]? = some (some mn) → (normaliseSeries vals)[i]? = some (some 0)) ∧
      (∀ i : ℕ, vals[i]? = some (some mx) → (normaliseSeries vals)[i]? = some (some 1)) ∧
      (∀ i : ℕ, vals[i]? = some none → (normaliseSeries vals)[i]? = some none)) := by
  refine ⟨normaliseSeries_length vals, ?_, normaliseSeries_of_allNone, ?_, ?_⟩
  · rintro rfl
    have hnil : seriesMin ([] : List (Option ℚ)) = none := rfl
    rw [normaliseSeries_eq_zeros (Or.inl hnil)]
    rfl
  · intro hconst
    cases hmn : seriesMin vals with
    | none => exact normaliseSeries_eq_zeros (Or.inl hmn)
    | some mn =>
      cases hmx : seriesMax vals with
      | none => exact normaliseSeries_eq_zeros (Or.inr hmx)
      | some mx =>
        have hmnmx : mn = mx :=
          hconst mn (listMin_spec hmn).1 mx (listMax_spec hmx).1
        refine normaliseSeries_eq_close hmn hmx ?_
        rw [← hmnmx, sub_self, abs_zero]
        positivity
  · intro mn mx h1 h2 hc
    have hle : mn ≤ mx := seriesMin_le_seriesMax h1 h2
    have hne : mx - mn ≠ 0 := by
      intro hzero
      refine hc ?_
      rw [hzero, abs_zero]
      positivity
    have hlt : 0 < mx - mn := lt_of_le_of_ne (by linarith) (Ne.symm hne)
    have hmap := normaliseSeries_eq_map h1 h2 hc
    refine ⟨?_, ?_, ?_, ?_⟩
    · intro i x hx
      have hxmem : x ∈ vals.filterMap id :=
        List.mem_filterMap.mpr ⟨some x, List.getElem?_mem hx, rfl⟩
      have hxlo := (listMin_spec h1).2 x hxmem
      have hxhi := (listMax_spec h2).2 x hxmem
      refine ⟨(x - mn) / (mx - mn), ?_, ?_, ?_⟩
      · rw [hmap, List.getElem?_map, hx]
        rfl
      · apply div_nonneg (by linarith) (le_of_lt hlt)
      · rw [div_le_one hlt]
        linarith
    · intro i hx
      rw [hmap, List.getElem?_map, hx]
      show some (some ((mn - mn) / (mx - mn))) = some (some 0)
      rw [sub_self, zero_div]
    · intro i hx
      rw [hmap, List.getElem?_map, hx]
      show some (some ((mx - mn) / (mx - mn))) = some (some 1)
      rw [div_self hne]
    · intro i hx
      rw [hmap, List.getElem?_map, hx]
      rfl

/-- C7 (witness): on the concrete series `[0, 1, NaN]` the output keeps
length 3, sends 0 to 0.0 and 1 to 1.0 and propagates the missing entry. -/
theorem claim7_witness :
    (normaliseSeries [some 0, some 1, none]).length = 3 ∧
    (normaliseSeries [some 0, some 1, none])[0]? = some (some 0) ∧
    (normaliseSeries [some 0, some 1, none])[1]? = some (some 1) ∧
    (normaliseSeries [some 0, some 1, none])[2]? = some none := by
  have h := claim7_theorem [some 0, some 1, none]
  have hmin : seriesMin [some 0, some 1, none] = some 0 := by
    unfold seriesMin
    norm_num [listMin]
  have hmax : seriesMax [some 0, some 1, none] = some 1 := by
    unfold seriesMax
    norm_num [listMax]
  have hc : ¬ |(1 : ℚ) - 0| ≤ 1 / 100000000 + (1 / 100000) * |(0 : ℚ)| := by
    norm_num
  have h5 := h.2.2.2.2 0 1 hmin hmax hc
  exact ⟨by simpa using h.1, h5.2.1 0 rfl, h5.2.2.1 1 rfl, h5.2.2.2 2 rfl⟩

theorem normalizeEmotionValues_eq_of {vals : List (Option ℚ)} {mn mx : ℚ}
    (h1 : listMin (vals.filterMap id) = some mn) (h2 : listMax (vals.filterMap id) = some mx) :
    normalizeEmotionValues vals = vals.map (fun v =>
      match v with
      | none => 1 / 2
      | some x => qclip 0 1 ((x - mn) / max (mx - mn) (1 / 1000000))) := by
  simp only [normalizeEmotionValues]
  rw [h1, h2]

theorem normalizeEmotionValues_eq_empty {vals : List (Option ℚ)}
    (h : listMin (vals.filterMap id) = none) :
    normalizeEmotionValues vals = vals.map (fun v =>
      match v with
      | none => 1 / 2
      | some x => qclip 0 1 ((x - 0) / 1)) := by
  simp only [normalizeEmotionValues]
  rw [h]

/-- C1 (counterexample): with a single driver whose emotions hold the defined
value 0.7, `normalize_emotions_for_lap` outputs 0.0 for that driver (the
`1e-6`-floored rescale of a zero range), not the claimed 1.0; with two drivers
sharing one identical defined value the outputs are 0.0 and 0.0, not the
claimed 0.5. -/
theorem claim1_counterexample :
    ((normalizeEmotionsForLap singleDriverInfo).map fun d => d.emotions.aggressiveness)
      = [0] ∧
    ((normalizeEmotionsForLap twoEqualDriverInfo).map fun d => d.emotions.aggressiveness)
      = [0, 0] ∧
    ((0 : ℚ) = 1 → False) ∧ ((0 : ℚ) = 1 / 2 → False) := by
  refine ⟨?_, ?_, by norm_num, by norm_num⟩
  · rw [normalizeEmotionsForLap_aggr]
    norm_num [singleDriverInfo, normalizeEmotionValues, listMin, listMax, qclip, max_def,
      min_def]
  · rw [normalizeEmotionsForLap_aggr]
    norm_num [twoEqualDriverInfo, normalizeEmotionValues, listMin, listMax, qclip, max_def,
      min_def]

/-- C1 (amended): `normalize_emotions_for_lap` renormalizes each emotion
dimension independently over the lap's drivers via
`(v - min) / max(max - min, 1e-6)` clipped to `[0, 1]`: a driver with a
missing value gets exactly 0.5, every output lies in `[0, 1]`, and when the
defined range is at least `1e-6` the minimum maps to 0.0 and the maximum to
1.0; but when all defined values are identical (a single driver included)
each maps to 0.0 — not to 0.5, and not to 1.0 for a lone driver.  The final
conjunct ties the per-dimension core to the full per-lap function for each of
the five emotion fields. -/
theorem claim1_amended (vals : List (Option ℚ)) :
    (normalizeEmotionValues vals).length = vals.length ∧
    (∀ i : ℕ, vals[i]? = some none → (normalizeEmotionValues vals)[i]? = some (1 / 2)) ∧
    (∀ q ∈ normalizeEmotionValues vals, 0 ≤ q ∧ q ≤ 1) ∧
    (∀ mn mx : ℚ, listMin (vals.filterMap id) = some mn →
      listMax (vals.filterMap id) = some mx →
      ((1 / 1000000 ≤ mx - mn →
        (∀ i : ℕ, vals[i]? = some (some mn) → (normalizeEmotionValues vals)[i]? = some 0) ∧
        (∀ i : ℕ, vals[i]? = some (some mx) → (normalizeEmotionValues vals)[i]? = some 1)) ∧
       (mn = mx → ∀ (i : ℕ) (x : ℚ), vals[i]? = some (some x) →
         (normalizeEmotionValues vals)[i]? = some 0))) ∧
    (∀ drivers : List DriverInfo,
      ((normalizeEmotionsForLap drivers).map fun d => d.emotions.aggressiveness) =
        normalizeEmotionValues (drivers.map fun d => d.emotions.aggressiveness) ∧
      ((normalizeEmotionsForLap drivers).map fun d => d.emotions.confidence) =
        normalizeEmotionValues (drivers.map fun d => d.emotions.confidence) ∧
      ((normalizeEmotionsForLap drivers).map fun d => d.emotions.frustration) =
        normalizeEmotionValues (drivers.map fun d => d.emotions.frustration) ∧
      ((normalizeEmotionsForLap drivers).map fun d => d.emotions.pressure) =
        normalizeEmotionValues (drivers.map fun d => d.emotions.pressure) ∧
      ((normalizeEmotionsForLap drivers).map fun d => d.emotions.riskTaking) =
        normalizeEmotionValues (drivers.map fun d => d.emotions.riskTaking)) := by
  refine ⟨normalizeEmotionValues_length vals, ?_, ?_, ?_, ?_⟩
  · intro i hx
    cases hmn : listMin (vals.filterMap id) with
    | none =>
      rw [normalizeEmotionValues_eq_empty hmn, List.getElem?_map, hx]
      rfl
    | some mn =>
      cases hmx : listMax (vals.filterMap id) with
      | none =>
        rw [listMax_eq_none_iff] at hmx
        rw [hmx] at hmn
        exact absurd hmn (by simp [listMin])
      | some mx =>
        rw [normalizeEmotionValues_eq_of hmn hmx, List.getElem?_map, hx]
        rfl
  · intro q hq
    simp only [normalizeEmotionValues, List.mem_map] at hq
    obtain ⟨v, _, rfl⟩ := hq
    cases v with
    | none => norm_num
    | some x => exact qclip_bounds (by norm_num)
  · intro mn mx h1 h2
    have hsub : mn ≤ mx := by
      obtain ⟨hmem, _⟩ := listMin_spec h1
      exact (listMax_spec h2).2 mn hmem
    constructor
    · intro hrange
      have hmaxeq : max (mx - mn) (1 / 1000000 : ℚ) = mx - mn := max_eq_left hrange
      have hpos : (0 : ℚ) < mx - mn := lt_of_lt_of_le (by norm_num) hrange
      constructor
      · intro i hx
        rw [normalizeEmotionValues_eq_of h1 h2, List.getElem?_map, hx]
        show some (qclip 0 1 ((mn - mn) / max (mx - mn) (1 / 1000000))) = some 0
        rw [sub_self, zero_div]
        norm_num [qclip]
      · intro i hx
        rw [normalizeEmotionValues_eq_of h1 h2, List.getElem?_map, hx]
        show some (qclip 0 1 ((mx - mn) / max (mx - mn) (1 / 1000000))) = some 1
        rw [hmaxeq, div_self (ne_of_gt hpos)]
        norm_num [qclip]
    · intro heq i x hx
      have hxmem : x ∈ vals.filterMap id :=
        List.mem_filterMap.mpr ⟨some x, List.getElem?_mem hx, rfl⟩
      have hxeq : x = mn :=
        le_antisymm (heq ▸ (listMax_spec h2).2 x hxmem) ((listMin_spec h1).2 x hxmem)
      rw [normalizeEmotionValues_eq_of h1 h2, List.getElem?_map, hx]
      show some (qclip 0 1 ((x - mn) / max (mx - mn) (1 / 1000000))) = some 0
      rw [hxeq, sub_self, zero_div]
      norm_num [qclip]
  · intro drivers
    exact ⟨normalizeEmotionsForLap_aggr drivers, normalizeEmotionsForLap_conf drivers,
      normalizeEmotionsForLap_frus drivers, normalizeEmotionsForLap_pres drivers,
      normalizeEmotionsForLap_risk drivers⟩

/-- C1 (amended, witness): on the concrete per-lap values `[0, 1, NaN]` the
minimum maps to 0.0, the maximum to 1.0 and the missing value to exactly
0.5. -/
theorem claim1_amended_witness :
    (normalizeEmotionValues [some 0, some 1, none])[0]? = some 0 ∧
    (normalizeEmotionValues [some 0, some 1, none])[1]? = some 1 ∧
    (normalizeEmotionValues [some 0, some 1, none])[2]? = some (1 / 2) := by
  have h := claim1_amended [some 0, some 1, none]
  have hmin : listMin (([some 0, some 1, none] : List (Option ℚ)).filterMap id) = some 0 := by
    norm_num [listMin]
  have hmax : listMax (([some 0, some 1, none] : List (Option ℚ)).filterMap id) = some 1 := by
    norm_num [listMax]
  have h4 := (h.2.2.2.1 0 1 hmin hmax).1 (by norm_num)
  exact ⟨h4.1 0 rfl, h4.2 1 rfl, h.2.1 2 rfl⟩

/-- C4 (counterexample): a laps table whose single row has no valid position
still contributes its lap number to `available_laps` (which is `[1]`), even
though the lap has zero valid driver entries and is absent from `lap_data` —
so `available_laps` is not the set of laps with at least one valid entry. -/
theorem claim4_counterexample :
    availableLaps noPositionLaps = [1] ∧
    activeRows noPositionLaps 1 = [] ∧
    (buildLapDataset noPositionLaps emptyScores).1 = [] ∧
    (buildLapDataset noPositionLaps emptyScores).2 = [1] := by
  have h1 : availableLaps noPositionLaps = [1] := by
    norm_num [availableLaps, noPositionLaps, mkLapRow, List.insertionSort, List.orderedInsert,
      List.dedup_cons_of_not_mem, List.dedup_nil]
  have h2 : activeRows noPositionLaps 1 = [] := by
    norm_num [activeRows, noPositionLaps, mkLapRow]
  refine ⟨h1, h2, ?_, ?_⟩
  · unfold buildLapDataset
    rw [h1]
    simp only [List.filterMap]
    rw [h2]
    rfl
  · show availableLaps noPositionLaps = [1]
    exact h1

/-- C4 (amended): `available_laps` is the ascending-sorted, duplicate-free
list of all lap numbers present in the laps table handed to the builder —
including laps with zero valid driver entries — while the keys of `lap_data`
are exactly the laps holding at least one row with a present, strictly
positive position. -/
theorem claim4_amended (laps : List LapRow) (scores : ScoreTables) :
    List.Sorted (· ≤ ·) (availableLaps laps) ∧
    (availableLaps laps).Nodup ∧
    (∀ n : ℤ, n ∈ availableLaps laps ↔ ∃ r ∈ laps, r.lapNumber = n) ∧
    (∀ (n : ℤ) (e : LapEntry), (n, e) ∈ (buildLapDataset laps scores).1 →
      ∃ r ∈ laps, r.lapNumber = n ∧ ∃ p, r.position = some p ∧ 0 < p) ∧
    (∀ n : ℤ, (∃ r ∈ laps, r.lapNumber = n ∧ ∃ p, r.position = some p ∧ 0 < p) →
      ∃ e, (n, e) ∈ (buildLapDataset laps scores).1) ∧
    (buildLapDataset laps scores).2 = availableLaps laps :=
  ⟨availableLaps_sorted laps, availableLaps_nodup laps,
    fun _ => mem_availableLaps, fun _ _ h => lapData_key_active h,
    fun _ h => lapData_key_of_active h, rfl⟩

/-- C4 (amended, witness): on a concrete two-driver lap table, lap 1 has a
valid driver entry and therefore appears as a `lap_data` key. -/
theorem claim4_amended_witness :
    ∃ e, ((1 : ℤ), e) ∈ (buildLapDataset twoDriverLaps emptyScores).1 := by
  refine (claim4_amended twoDriverLaps emptyScores).2.2.2.2.1 1 ?_
  refine ⟨mkLapRow "VER" 1 (some 90) (some 1), ?_, rfl, 1, rfl, by norm_num⟩
  simp [twoDriverLaps]

/-- C8: robustness to missing telemetry — every lap row with a strictly
positive lap time yields a row in each of the five scoring transforms'
outputs (telemetry present for that driver or not), and every score any
transform emits is a defined (non-missing) value: absent telemetry aggregates
are substituted with column means or fixed defaults, and the embedded
transforms are total functions, so no missing-data exception arises. -/
theorem claim8_theorem (expFn sqrtFn : ℚ → ℚ) (laps : List LapRow) (tele : List TeleRow)
    (rc : List RCEvent) (lr : LapRow) (hlr : lr ∈ laps) (t : ℚ) (ht : lr.lapTime = some t)
    (htpos : 0 < t) :
    ((∃ r ∈ calculateAggressiveness expFn laps tele,
        r.driver = lr.driver ∧ r.lapNumber = lr.lapNumber) ∧
      ∀ r ∈ calculateAggressiveness expFn laps tele, r.score.isSome) ∧
    ((∃ r ∈ calculateConfidence sqrtFn laps tele,
        r.driver = lr.driver ∧ r.lapNumber = lr.lapNumber) ∧
      ∀ r ∈ calculateConfidence sqrtFn laps tele, r.score.isSome) ∧
    ((∃ r ∈ calculateFrustration laps rc,
        r.driver = lr.driver ∧ r.lapNumber = lr.lapNumber) ∧
      ∀ r ∈ calculateFrustration laps rc, r.score.isSome) ∧
    ((∃ r ∈ calculatePressure laps tele,
        r.driver = lr.driver ∧ r.lapNumber = lr.lapNumber) ∧
      ∀ r ∈ calculatePressure laps tele, r.score.isSome) ∧
    ((∃ r ∈ calculateRiskTaking laps tele,
        r.driver = lr.driver ∧ r.lapNumber = lr.lapNumber) ∧
      ∀ r ∈ calculateRiskTaking laps tele, r.score.isSome) :=
  ⟨⟨calculateAggressiveness_complete hlr ht htpos, calculateAggressiveness_isSome⟩,
   ⟨calculateConfidence_complete hlr ht htpos, calculateConfidence_isSome⟩,
   ⟨calculateFrustration_complete hlr ht htpos, calculateFrustration_isSome⟩,
   ⟨calculatePressure_complete hlr ht htpos, calculatePressure_isSome⟩,
   ⟨calculateRiskTaking_complete hlr ht htpos, calculateRiskTaking_isSome⟩⟩

/-- C8 (witness): on the concrete lap with two drivers of whom `BOT` has no
telemetry at all, every transform still carries a `BOT` row and only defined
scores. -/
theorem claim8_witness :
    ((∃ r ∈ calculateAggressiveness id twoDriverLaps verOnlyTele,
        r.driver = "BOT" ∧ r.lapNumber = 1) ∧
      ∀ r ∈ calculateAggressiveness id twoDriverLaps verOnlyTele, r.score.isSome) ∧
    ((∃ r ∈ calculateConfidence id twoDriverLaps verOnlyTele,
        r.driver = "BOT" ∧ r.lapNumber = 1) ∧
      ∀ r ∈ calculateConfidence id twoDriverLaps verOnlyTele, r.score.isSome) ∧
    ((∃ r ∈ calculateFrustration twoDriverLaps rcExample,
        r.driver = "BOT" ∧ r.lapNumber = 1) ∧
      ∀ r ∈ calculateFrustration twoDriverLaps rcExample, r.score.isSome) ∧
    ((∃ r ∈ calculatePressure twoDriverLaps verOnlyTele,
        r.driver = "BOT" ∧ r.lapNumber = 1) ∧
      ∀ r ∈ calculatePressure twoDriverLaps verOnlyTele, r.score.isSome) ∧
    ((∃ r ∈ calculateRiskTaking twoDriverLaps verOnlyTele,
        r.driver = "BOT" ∧ r.lapNumber = 1) ∧
      ∀ r ∈ calculateRiskTaking twoDriverLaps verOnlyTele, r.score.isSome) :=
  claim8_theorem id id twoDriverLaps verOnlyTele rcExample
    (mkLapRow "BOT" 1 (some 91) (some 2)) (by simp [twoDriverLaps]) 91 rfl (by norm_num)

/-- C5 (amended): if every row of a (driver, lap) pair lacks a strictly
positive lap time, none of the five scoring transforms emits a row for that
pair; but the lap-data builder filters only on position, so the lap still
appears as a `lap_data` key whenever some row of that lap holds a valid
positive position — it is not absent as the claim states. -/
theorem claim5_amended (expFn sqrtFn : ℚ → ℚ) (laps : List LapRow) (tele : List TeleRow)
    (rc : List RCEvent) (scores : ScoreTables) (d : String) (n : ℤ)
    (h : ∀ lr ∈ laps, lr.driver = d → lr.lapNumber = n →
      ∀ t : ℚ, lr.lapTime = some t → t ≤ 0) :
    (∀ r ∈ calculateAggressiveness expFn laps tele,
      r.driver = d → r.lapNumber = n → False) ∧
    (∀ r ∈ calculateConfidence sqrtFn laps tele,
      r.driver = d → r.lapNumber = n → False) ∧
    (∀ r ∈ calculateFrustration laps rc, r.driver = d → r.lapNumber = n → False) ∧
    (∀ r ∈ calculatePressure laps tele, r.driver = d → r.lapNumber = n → False) ∧
    (∀ r ∈ calculateRiskTaking laps tele, r.driver = d → r.lapNumber = n → False) ∧
    ((∃ lr ∈ laps, lr.lapNumber = n ∧ ∃ p, lr.position = some p ∧ 0 < p) →
      ∃ e, (n, e) ∈ (buildLapDataset laps scores).1) := by
  refine ⟨?_, ?_, ?_, ?_, ?_, ?_⟩
  · intro r hr hd hn
    obtain ⟨lr, hlr, hld, hll, t, ht, htp⟩ := calculateAggressiveness_prov hr
    exact absurd htp (not_lt.mpr (h lr hlr (hld.trans hd) (hll.trans hn) t ht))
  · intro r hr hd hn
    obtain ⟨lr, hlr, hld, hll, t, ht, htp⟩ := calculateConfidence_prov hr
    exact absurd htp (not_lt.mpr (h lr hlr (hld.trans hd) (hll.trans hn) t ht))
  · intro r hr hd hn
    obtain ⟨lr, hlr, hld, hll, t, ht, htp⟩ := calculateFrustration_prov hr
    exact absurd htp (not_lt.mpr (h lr hlr (hld.trans hd) (hll.trans hn) t ht))
  · intro r hr hd hn
    obtain ⟨lr, hlr, hld, hll, t, ht, htp⟩ := calculatePressure_prov hr
    exact absurd htp (not_lt.mpr (h lr hlr (hld.trans hd) (hll.trans hn) t ht))
  · intro r hr hd hn
    obtain ⟨lr, hlr, hld, hll, t, ht, htp⟩ := calculateRiskTaking_prov hr
    exact absurd htp (not_lt.mpr (h lr hlr (hld.trans hd) (hll.trans hn) t ht))
  · intro hpos
    exact lapData_key_of_active (by
      obtain ⟨lr, hlr, hn, p, hp, hpp⟩ := hpos
      exact ⟨lr, hlr, hn, p, hp, hpp⟩)

/-- C5 (amended, witness): the concrete driver with a 0-second lap 10 and
position 1 gets no row from any transform, yet lap 10 keeps a `lap_data`
entry. -/
theorem claim5_amended_witness :
    (∀ r ∈ calculateAggressiveness id zeroTimeLaps [],
      r.driver = "VER" → r.lapNumber = 10 → False) ∧
    (∀ r ∈ calculateConfidence id zeroTimeLaps [],
      r.driver = "VER" → r.lapNumber = 10 → False) ∧
    (∀ r ∈ calculateFrustration zeroTimeLaps [], r.driver = "VER" → r.lapNumber = 10 → False) ∧
    (∀ r ∈ calculatePressure zeroTimeLaps [], r.driver = "VER" → r.lapNumber = 10 → False) ∧
    (∀ r ∈ calculateRiskTaking zeroTimeLaps [], r.driver = "VER" → r.lapNumber = 10 → False) ∧
    ((∃ lr ∈ zeroTimeLaps, lr.lapNumber = 10 ∧ ∃ p, lr.position = some p ∧ 0 < p) →
      ∃ e, ((10 : ℤ), e) ∈ (buildLapDataset zeroTimeLaps emptyScores).1) := by
  refine claim5_amended id id zeroTimeLaps [] [] emptyScores "VER" 10 ?_
  intro lr hlr _ _ t ht
  simp only [zeroTimeLaps, List.mem_singleton] at hlr
  subst hlr
  simp only [mkLapRow, Option.some.injEq] at ht
  rw [← ht]

theorem expectedLifeOf_pos (c : String) : 0 < expectedLifeOf c := by
  unfold expectedLifeOf
  split_ifs <;> norm_num

theorem aggrBaseRows_tyreLife_nonneg {laps : List LapRow} {b : AggrBase}
    (hb : b ∈ aggrBaseRows laps)
    (htyre : ∀ r ∈ laps, ∀ t : ℚ, r.tyreLife = some t → 0 ≤ t) : 0 ≤ b.tyreLife := by
  unfold aggrBaseRows at hb
  simp only [List.mem_map] at hb
  obtain ⟨lr, hlr, rfl⟩ := hb
  show 0 ≤ lr.tyreLife.getD 0
  cases hty : lr.tyreLife with
  | none => norm_num
  | some t =>
    have := htyre lr (mem_lapTimeFilter.mp hlr).1 t hty
    simpa using this

theorem aggrTeleAgg_dist_nonneg {tele : List TeleRow} {a : AggrTele}
    (ha : a ∈ aggrTeleAgg tele)
    (hdist : ∀ s ∈ tele, ∀ q : ℚ, s.distanceToDriverAhead = some q → 0 ≤ q) :
    0 ≤ a.avgDistAhead := by
  unfold aggrTeleAgg at ha
  simp only [List.mem_map] at ha
  obtain ⟨k, _, rfl⟩ := ha
  show 0 ≤ (omean ((teleGroup tele k).map (·.distanceToDriverAhead))).getD 1000
  cases hm : omean ((teleGroup tele k).map (·.distanceToDriverAhead)) with
  | none => norm_num
  | some m =>
    have hnn : 0 ≤ m := by
      refine omean_nonneg ?_ hm
      intro v hv q hvq
      obtain ⟨s, hs, rfl⟩ := List.mem_map.mp hv
      exact hdist s (List.mem_of_mem_filter hs) q hvq
    simpa using hnn

theorem aggrTeleAgg_drs_nonneg {tele : List TeleRow} {a : AggrTele}
    (ha : a ∈ aggrTeleAgg tele) : 0 ≤ a.drsCount := by
  unfold aggrTeleAgg at ha
  simp only [List.mem_map] at ha
  obtain ⟨k, _, rfl⟩ := ha
  show (0 : ℚ) ≤ (((teleGroup tele k).countP fun t => decide (0 < t.drs.getD 0)) : ℕ)
  positivity

/-- C6 (counterexample): the aggressiveness factor columns are not all in
`[0, 1]` — on a concrete session the first factor row has
`time_factor = 2 > 1` (the session-best corrected time falls back to 1.0 once
fuel correction drives a corrected time negative) and
`position_factor = 31/30 > 1` (a title contender in position 1 of a 6-driver
field); another row's `time_factor` is even negative. -/
theorem claim6_counterexample :
    ((aggressivenessFactorRows id aggrRangeLaps []).map fun fr =>
      (fr.timeFactor, fr.positionFactor)) =
      [(2, 31 / 30), (-40 / 37, 4 / 5), (1 / 100, 4 / 5)] ∧
    ((1 : ℚ) < 2) ∧ ((1 : ℚ) < 31 / 30) := by
  refine ⟨?_, by norm_num, by norm_num⟩
  have hd : (["VER", "BOT", "PER", "HAM", "NOR", "LEC"] : List String).dedup =
      ["VER", "BOT", "PER", "HAM", "NOR", "LEC"] := by
    simp [List.dedup_cons_of_mem, List.dedup_cons_of_not_mem, List.dedup_nil]
  norm_num [hd, aggressivenessFactorRows, aggrRangeLaps, aggrBaseRows, mkLapRow, lapTimeFilter,
    aggrTeleAgg, teleKeys, findAggrTele, sessionBest, listMin, ofill, omean, qclip,
    positionFactorOf, degRateOf, expectedLifeOf, rawScoreAggr, max_def, min_def,
    List.dedup_cons_of_mem, List.dedup_cons_of_not_mem, List.dedup_nil,
    List.insertionSort, List.orderedInsert]

/-- C6 (amended): under the natural data-sanity hypotheses (the exponential
maps non-positive arguments into `[0, 1]`, tyre ages and gaps are
non-negative), the aggressiveness throttle, tyre, gap, DRS and brake factors
all lie in `[0, 1]`; the claim fails only for `position_factor` (which
reaches `1.2 - position/total > 1` for a top-5 title contender) and
`time_factor` (unclipped, it leaves `[0, 1]` when the session-best corrected
time is non-positive), as the counterexample shows. -/
theorem claim6_amended (expFn : ℚ → ℚ) (laps : List LapRow) (tele : List TeleRow)
    (hexp : ∀ x : ℚ, x ≤ 0 → 0 ≤ expFn x ∧ expFn x ≤ 1)
    (htyre : ∀ r ∈ laps, ∀ t : ℚ, r.tyreLife = some t → 0 ≤ t)
    (hdist : ∀ s ∈ tele, ∀ q : ℚ, s.distanceToDriverAhead = some q → 0 ≤ q) :
    ∀ fr ∈ aggressivenessFactorRows expFn laps tele,
      (0 ≤ fr.throttleFactor ∧ fr.throttleFactor ≤ 1) ∧
      (0 ≤ fr.tyreFactor ∧ fr.tyreFactor ≤ 1) ∧
      (0 ≤ fr.gapFactor ∧ fr.gapFactor ≤ 1) ∧
      (0 ≤ fr.drsFactor ∧ fr.drsFactor ≤ 1) ∧
      (0 ≤ fr.brakeFactor ∧ fr.brakeFactor ≤ 1) := by
  intro fr hfr
  unfold aggressivenessFactorRows at hfr
  simp only [List.mem_map] at hfr
  obtain ⟨b, hb, rfl⟩ := hfr
  have hthrottle : ∀ x : ℚ, 0 ≤ qclip 0 100 x / 100 ∧ qclip 0 100 x / 100 ≤ 1 := by
    intro x
    obtain ⟨h1, h2⟩ := @qclip_bounds 0 100 x (by norm_num)
    exact ⟨div_nonneg h1 (by norm_num), by rw [div_le_one (by norm_num)]; exact h2⟩
  have hbrake : ∀ x : ℚ, 0 ≤ 1 - qclip 0 1 x ∧ 1 - qclip 0 1 x ≤ 1 := by
    intro x
    obtain ⟨h1, h2⟩ := @qclip_bounds 0 1 x (by norm_num)
    exact ⟨by linarith, by linarith⟩
  have hdrs : ∀ c : ℚ, 0 ≤ c →
      0 ≤ min 1 (2 * c / 200 + 0.3) ∧ min 1 (2 * c / 200 + 0.3) ≤ 1 := by
    intro c hc
    have h1 : (0 : ℚ) ≤ 2 * c / 200 := by
      apply div_nonneg (by linarith) (by norm_num)
    exact ⟨le_min (by norm_num) (by linarith), min_le_left _ _⟩
  have htyreb : 0 ≤ b.tyreLife := aggrBaseRows_tyreLife_nonneg hb htyre
  have hexpd : 0 < expectedLifeOf b.compound := expectedLifeOf_pos _
  have htyref : 0 ≤ max 0.1 (1 - b.tyreLife / expectedLifeOf b.compound) ∧
      max 0.1 (1 - b.tyreLife / expectedLifeOf b.compound) ≤ 1 := by
    have hq : 0 ≤ b.tyreLife / expectedLifeOf b.compound := div_nonneg htyreb hexpd.le
    exact ⟨le_trans (by norm_num) (le_max_left _ _), max_le (by norm_num) (by linarith)⟩
  have hdistb : 0 ≤ (((findAggrTele (aggrTeleAgg tele) b.driver b.lapNumber).map
      (·.avgDistAhead)).getD 1000) := by
    cases hm : findAggrTele (aggrTeleAgg tele) b.driver b.lapNumber with
    | none => norm_num
    | some a =>
      have ham : a ∈ aggrTeleAgg tele := by
        unfold findAggrTele at hm
        exact List.mem_of_find?_eq_some hm
      have := aggrTeleAgg_dist_nonneg ham hdist
      simpa using this
  have hgaparg : -(((findAggrTele (aggrTeleAgg tele) b.driver b.lapNumber).map
      (·.avgDistAhead)).getD 1000) / 10 ≤ 0 := by
    rw [div_nonpos_iff]
    right
    exact ⟨neg_nonpos.mpr hdistb, by norm_num⟩
  have hdrsb : 0 ≤ (((findAggrTele (aggrTeleAgg tele) b.driver b.lapNumber).map
      (·.drsCount)).getD 0) := by
    cases hm : findAggrTele (aggrTeleAgg tele) b.driver b.lapNumber with
    | none => norm_num
    | some a =>
      have ham : a ∈ aggrTeleAgg tele := by
        unfold findAggrTele at hm
        exact List.mem_of_find?_eq_some hm
      have := aggrTeleAgg_drs_nonneg ham
      simpa using this
  exact ⟨hthrottle _, htyref, hexp _ hgaparg, hdrs _ hdrsb, hbrake _⟩

/-- C6 (amended, witness): on a concrete one-row session with constant
`expFn = 1/2`, every clipped aggressiveness factor of every row lies in
`[0, 1]`. -/
theorem claim6_amended_witness :
    ((aggressivenessFactorRows (fun _ => 1 / 2) noPositionLaps []).all
      fun fr =>
        decide (0 ≤ fr.throttleFactor) && decide (fr.throttleFactor ≤ 1) &&
        decide (0 ≤ fr.tyreFactor) && decide (fr.tyreFactor ≤ 1) &&
        decide (0 ≤ fr.gapFactor) && decide (fr.gapFactor ≤ 1) &&
        decide (0 ≤ fr.drsFactor) && decide (fr.drsFactor ≤ 1) &&
        decide (0 ≤ fr.brakeFactor) && decide (fr.brakeFactor ≤ 1)) = true := by
  rw [List.all_eq_true]
  intro fr hfr
  have h := claim6_amended (fun _ => 1 / 2) noPositionLaps []
    (by intro x _
        norm_num)
    (by intro r hr t ht
        simp only [noPositionLaps, List.mem_singleton] at hr
        subst hr
        simp [mkLapRow] at ht)
    (by intro s hs
        simp at hs) fr hfr
  obtain ⟨⟨a1, a2⟩, ⟨b1, b2⟩, ⟨c1, c2⟩, ⟨d1, d2⟩, ⟨e1, e2⟩⟩ := h
  simp [a1, a2, b1, b2, c1, c2, d1, d2, e1, e2]

/-- C5 (counterexample): a driver whose recorded lap time is 0 seconds on
lap 10 contributes no row to any of the five score tables — yet, because the
builder filters only on position, lap 10 is present in `lap_data` (with that
driver's five emotions defaulted to 0.5), contradicting the claim that the
lap would be entirely absent. -/
theorem claim5_counterexample :
    calculateAggressiveness id zeroTimeLaps [] = [] ∧
    calculateConfidence id zeroTimeLaps [] = [] ∧
    calculateFrustration zeroTimeLaps [] = [] ∧
    calculatePressure zeroTimeLaps [] = [] ∧
    calculateRiskTaking zeroTimeLaps [] = [] ∧
    (runPipeline id id zeroTimeLaps [] []).lapData =
      [((10 : ℤ),
        (⟨10, [⟨"VER", 1, "#0600EF", ⟨1 / 2, 1 / 2, 1 / 2, 1 / 2, 1 / 2⟩⟩]⟩ : LapEntry))] := by
  have hfil : lapTimeFilter zeroTimeLaps = [] := by
    norm_num [lapTimeFilter, zeroTimeLaps, mkLapRow]
  have h1 : calculateAggressiveness id zeroTimeLaps [] = [] := by
    simp [calculateAggressiveness, aggressivenessFactorRows, aggrBaseRows, hfil,
      normaliseSeries, seriesMin, seriesMax, listMin, listMax, sortScoreRows,
      List.insertionSort, aggrTeleAgg, teleKeys]
  have h2 : calculateConfidence id zeroTimeLaps [] = [] := by
    simp [calculateConfidence, confidenceFactorRows, hfil, sortLapRows, normaliseSeries,
      seriesMin, seriesMax, listMin, listMax, sortScoreRows, List.insertionSort,
      confTeleAgg, teleKeys]
  have h3 : calculateFrustration zeroTimeLaps [] = [] := by
    simp [calculateFrustration, frustrationFactorRows, hfil, sortLapRows, normaliseSeries,
      seriesMin, seriesMax, listMin, listMax, sortScoreRows, List.insertionSort,
      List.insertionSort, zipWith4]
  have h4 : calculatePressure zeroTimeLaps [] = [] := by
    simp [calculatePressure, pressureFactorRows, pressMergedRows, hfil, normaliseSeries,
      seriesMin, seriesMax, listMin, listMax, sortScoreRows, List.insertionSort,
      pressTeleAgg, teleKeys, zipWith6]
  have h5 : calculateRiskTaking zeroTimeLaps [] = [] := by
    simp [calculateRiskTaking, riskFactorRows, hfil, sortLapRows, normaliseSeries,
      seriesMin, seriesMax, listMin, listMax, sortScoreRows, List.insertionSort,
      riskTeleAgg, teleKeys, zipWith6]
  refine ⟨h1, h2, h3, h4, h5, ?_⟩
  show (buildLapDataset zeroTimeLaps
    { aggressiveness := calculateAggressiveness id zeroTimeLaps [],
      confidence := calculateConfidence id zeroTimeLaps [],
      frustration := calculateFrustration zeroTimeLaps [],
      pressure := calculatePressure zeroTimeLaps [],
      riskTaking := calculateRiskTaking zeroTimeLaps [] }).1 = _
  rw [h1, h2, h3, h4, h5]
  show (buildLapDataset zeroTimeLaps emptyScores).1 = _
  have havail : availableLaps zeroTimeLaps = [10] := by
    norm_num [availableLaps, zeroTimeLaps, mkLapRow, List.insertionSort, List.orderedInsert,
      List.dedup_cons_of_not_mem, List.dedup_nil]
  have hactive : activeRows zeroTimeLaps 10 = [mkLapRow "VER" 10 (some 0) (some 1)] := by
    norm_num [activeRows, zeroTimeLaps, mkLapRow]
  have hbeq1 : (("HAM" : String) == "VER") = false := by simp
  have hbeq2 : (("BOT" : String) == "VER") = false := by simp
  have hbeq3 : (("VER" : String) == "VER") = true := by simp
  have hinfos : lapDriversInfo zeroTimeLaps emptyScores 10 =
      [⟨"VER", 1, "#0600EF", ⟨none, none, none, none, none⟩⟩] := by
    rw [lapDriversInfo, hactive]
    norm_num [List.insertionSort, List.orderedInsert, scoreLookup, emptyScores, teamColorOf,
      teamColorTable, pyInt, mkLapRow, List.find?, hbeq1, hbeq2, hbeq3]
  have hnorm : normalizeEmotionsForLap
      [⟨"VER", 1, "#0600EF", ⟨none, none, none, none, none⟩⟩] =
      [⟨"VER", 1, "#0600EF", ⟨1 / 2, 1 / 2, 1 / 2, 1 / 2, 1 / 2⟩⟩] := by
    norm_num [normalizeEmotionsForLap, normalizeEmotionValues, listMin, listMax,
      List.range_succ, List.range_zero]
  simp only [buildLapDataset]
  rw [havail]
  simp only [List.filterMap_cons, List.filterMap_nil]
  rw [hactive, hinfos, hnorm]
  norm_num

/-- C3 (amended): in `calculate_pressure`'s `raw_score` the weights follow
the code's order — gap-ahead 0.30, gap-behind 0.20, tyre wear 0.20,
lap-phase 0.15, position 0.10, brake 0.05 — i.e. relative to the spec's
listed order the position and lap-phase weights are swapped: the lap-phase
component contributes `0.15·lp` and the position component `0.10·pos`,
whereas the spec's formula gives position `0.15·pos`. -/
theorem claim3_amended (ga gb ty lp pos br : ℚ) :
    rawScorePressure ga gb ty lp pos br =
      0.3 * ga + 0.2 * gb + 0.2 * ty + 0.15 * lp + 0.10 * pos + 0.05 * br ∧
    rawScorePressure ga gb ty lp pos br - rawScorePressure ga gb ty 0 pos br = 0.15 * lp ∧
    rawScorePressure ga gb ty lp pos br - rawScorePressure ga gb ty lp 0 br = 0.10 * pos ∧
    specRawScorePressure ga gb ty pos lp br - specRawScorePressure ga gb ty 0 lp br =
      0.15 * pos := by
  refine ⟨rfl, ?_, ?_, ?_⟩ <;>
    · simp only [rawScorePressure, specRawScorePressure]
      ring

set_option maxHeartbeats 1000000 in
/-- C3 (counterexample): on a concrete two-lap session the implemented weight
order and the spec's listed order produce different pressure scores (the two
laps' scores are swapped); and at the component level the code weighs the
lap-phase slot 0.15 where the spec's order demands position there. -/
theorem claim3_counterexample :
    calculatePressure pressureOrderLaps [] =
      [⟨"VER", 1, some 0⟩, ⟨"VER", 2, some 1⟩] ∧
    calculatePressureSpecWeights pressureOrderLaps [] =
      [⟨"VER", 1, some 1⟩, ⟨"VER", 2, some 0⟩] ∧
    rawScorePressure 0 0 0 1 0 0 = 3 / 20 ∧ specRawScorePressure 0 0 0 1 0 0 = 3 / 20 ∧
    rawScorePressure 0 0 0 0 1 0 = 1 / 10 ∧
    ((3 : ℚ) / 20 = 1 / 10 → False) := by
  have hfil : lapTimeFilter pressureOrderLaps =
      [mkLapRow "VER" 1 (some 90) (some 1), mkLapRow "VER" 2 (some 90) (some 2)] := by
    norm_num [lapTimeFilter, pressureOrderLaps, mkLapRow]
  have hagg : pressTeleAgg [] = [] := by
    norm_num [pressTeleAgg, teleKeys, List.insertionSort]
  have hmerged : pressMergedRows pressureOrderLaps [] =
      [⟨"VER", 1, some 1, 0, 1 / 10, 1000, none⟩,
       ⟨"VER", 2, some 2, 0, 1 / 10, 1000, none⟩] := by
    simp only [pressMergedRows]
    rw [hfil, hagg]
    norm_num [distanceToDriverBehind, pressRowExpand, findPressTele, mkLapRow,
      List.flatMap_cons, List.flatMap_nil, List.filterMap_cons, List.filterMap_nil]
  have hrows : pressureFactorRows pressureOrderLaps [] =
      [⟨"VER", 1, 1 / 1001, 1 / 1001, 0, 0, 1 / 2, 1 / 10⟩,
       ⟨"VER", 2, 1 / 1001, 1 / 1001, 0, -1, 1, 1 / 10⟩] := by
    unfold pressureFactorRows
    rw [hmerged, hfil]
    norm_num [mkLapRow, qclip, max_def, min_def, listMax,
      List.dedup_cons_of_mem, List.dedup_cons_of_not_mem, List.dedup_nil]
  have hga : normaliseSeries [some ((1:ℚ)/1001), some (1/1001)] = [some 0, some 0] := by
    norm_num [normaliseSeries, seriesMin, seriesMax, listMin, listMax,
      List.filterMap_cons, List.filterMap_nil, min_def, max_def, abs_eq_max_neg,
      List.replicate_succ, List.replicate_zero]
  have hz : normaliseSeries [some ((0:ℚ)), some 0] = [some 0, some 0] := by
    norm_num [normaliseSeries, seriesMin, seriesMax, listMin, listMax,
      List.filterMap_cons, List.filterMap_nil, min_def, max_def, abs_eq_max_neg,
      List.replicate_succ, List.replicate_zero]
  have hpos : normaliseSeries [some ((0:ℚ)), some (-1)] = [some 1, some 0] := by
    norm_num [normaliseSeries, seriesMin, seriesMax, listMin, listMax,
      List.filterMap_cons, List.filterMap_nil, min_def, max_def, abs_eq_max_neg,
      List.replicate_succ, List.replicate_zero]
  have hlp : normaliseSeries [some ((1:ℚ)/2), some 1] = [some 0, some 1] := by
    norm_num [normaliseSeries, seriesMin, seriesMax, listMin, listMax,
      List.filterMap_cons, List.filterMap_nil, min_def, max_def, abs_eq_max_neg,
      List.replicate_succ, List.replicate_zero]
  have hbr : normaliseSeries [some ((1:ℚ)/10), some (1/10)] = [some 0, some 0] := by
    norm_num [normaliseSeries, seriesMin, seriesMax, listMin, listMax,
      List.filterMap_cons, List.filterMap_nil, min_def, max_def, abs_eq_max_neg,
      List.replicate_succ, List.replicate_zero]
  have hrawCode : normaliseSeries [some ((1:ℚ)/10), some (3/20)] = [some 0, some 1] := by
    norm_num [normaliseSeries, seriesMin, seriesMax, listMin, listMax,
      List.filterMap_cons, List.filterMap_nil, min_def, max_def, abs_eq_max_neg,
      List.replicate_succ, List.replicate_zero]
  have hrawSpec : normaliseSeries [some ((3:ℚ)/20), some (1/10)] = [some 1, some 0] := by
    norm_num [normaliseSeries, seriesMin, seriesMax, listMin, listMax,
      List.filterMap_cons, List.filterMap_nil, min_def, max_def, abs_eq_max_neg,
      List.replicate_succ, List.replicate_zero]
  refine ⟨?_, ?_, by norm_num [rawScorePressure], by norm_num [specRawScorePressure],
    by norm_num [rawScorePressure], by norm_num⟩
  · unfold calculatePressure
    rw [hrows]
    norm_num [hga, hz, hpos, hlp, hbr, hrawCode, zipWith6, omap6, rawScorePressure,
      qclip, sortScoreRows, List.insertionSort, List.orderedInsert, scoreRowLe,
      max_def, min_def, lt_self_iff_false]
  · unfold calculatePressureSpecWeights
    rw [hrows]
    norm_num [hga, hz, hpos, hlp, hbr, hrawSpec, zipWith6, omap6, specRawScorePressure,
      qclip, sortScoreRows, List.insertionSort, List.orderedInsert, scoreRowLe,
      max_def, min_def, lt_self_iff_false]
